import Mathlib

/-!
Verification development for the collection coordinator
(`src/lib/collection/src/collection.rs`).

The definitions below are a shallow embedding of the coordinator's pure
control logic.  External collaborators of `Collection` (local and remote
shards, the consensus layer, the filesystem) are abstracted as oracle
functions or, where a claim depends on their behaviour, modelled from the
specification and marked as such in their doc comments.
-/

namespace Qdrant

/-! ## Version gate (`Collection::can_upgrade_storage`) -/

/-- Semantic version, as used by `CollectionVersion`. -/
structure SemVer where
  major : Nat
  minor : Nat
  patch : Nat
deriving DecidableEq, Repr

/-- Embedding of `Collection::can_upgrade_storage` (collection.rs:188-199):
returns false on a major mismatch, a minor mismatch, or when
`stored.patch + 1 < app.patch`; true otherwise. -/
def canUpgradeStorage (stored app : SemVer) : Bool :=
  if stored.major ≠ app.major then
    false
  else if stored.minor ≠ app.minor then
    false
  else if stored.patch + 1 < app.patch then
    false
  else
    true

/-! ## Core identifiers and replica-set model -/

/-- Replica state of one peer for one shard (`ReplicaState`). -/
inductive ReplicaState where
  | Active
  | Dead
  | Partial
  | Initializing
  | Listener
deriving DecidableEq, Repr

/-- The local-replica slot of a replica set.  Modelled from the spec:
the "forward proxy" decorator and the remote stub replacing a
transferred-away local shard are represented as a tagged variant
(spec section 9, "Proxy shards as wrappers"). -/
inductive LocalSlot where
  | LocalReady
  | ForwardProxy (dest : Nat)
  | RemoteStub (dest : Nat)
  | Dummy
  | NoLocal
deriving DecidableEq, Repr

/-- State of one `ShardReplicaSet`: the per-peer replica states (an
association list keyed by peer id), the local replica slot, and the remote
stubs this peer holds for the shard. -/
structure ReplicaSetSt where
  peers : List (Nat × ReplicaState)
  localSlot : LocalSlot
  remotes : List Nat
deriving DecidableEq, Repr

/-- `ReplicaSet::peer_state(peer_id)`. -/
def peerStateOf (rs : ReplicaSetSt) (p : Nat) : Option ReplicaState :=
  (rs.peers.find? (fun e => e.1 = p)).map (fun e => e.2)

/-- `ReplicaSet::set_replica_state(p, s)` on the peer map: update the entry
for `p`, inserting it if missing (the map variant used by
`ensure_replica_with_state` as well; modelled from the spec, which says
`ensure_replica_with_state` inserts when missing). -/
def setPeerState (peers : List (Nat × ReplicaState)) (p : Nat) (st : ReplicaState) :
    List (Nat × ReplicaState) :=
  if peers.any (fun e => e.1 = p) then
    peers.map (fun e => if e.1 = p then (p, st) else e)
  else
    peers ++ [(p, st)]

/-- A shard transfer descriptor (`ShardTransfer`). -/
structure ShardTransfer where
  shardId : Nat
  src : Nat
  dst : Nat
  sync : Bool
deriving DecidableEq, Repr

/-- A transfer key (`ShardTransferKey`): the `sync` flag excluded. -/
structure TransferKey where
  shardId : Nat
  src : Nat
  dst : Nat
deriving DecidableEq, Repr

/-- `ShardTransfer::key()`. -/
def ShardTransfer.key (t : ShardTransfer) : TransferKey :=
  ⟨t.shardId, t.src, t.dst⟩

/-- `ShardTransferKey::check(transfer)`. -/
def TransferKey.check (k : TransferKey) (t : ShardTransfer) : Bool :=
  t.shardId = k.shardId ∧ t.src = k.src ∧ t.dst = k.dst

/-- The coordinator state a single `Collection` owns on one peer: its peer
id, the shard map (`ShardHolder`), and the pending-transfer registry. -/
structure CollectionState where
  thisPeer : Nat
  shards : List (Nat × ReplicaSetSt)
  transfers : List ShardTransfer
deriving DecidableEq, Repr

/-- `ShardHolder::get_shard(id)`. -/
def getShard (s : CollectionState) (id : Nat) : Option ReplicaSetSt :=
  (s.shards.find? (fun e => e.1 = id)).map (fun e => e.2)

/-- Apply `f` to the replica set of shard `id` (mutation through the shard
holder's map). -/
def updateShard (s : CollectionState) (id : Nat) (f : ReplicaSetSt → ReplicaSetSt) :
    CollectionState :=
  { s with shards := s.shards.map (fun e => if e.1 = id then (e.1, f e.2) else e) }

/-- `ShardHolder::register_finish_transfer(key)`: drop the key from the
pending-transfer registry (a no-op when the key is absent). -/
def removeTransferKey (s : CollectionState) (k : TransferKey) : CollectionState :=
  { s with transfers := s.transfers.filter (fun t => ¬ k.check t) }

/-- `Collection::get_transfer(key)` (collection.rs:444-453). -/
def findTransfer (s : CollectionState) (k : TransferKey) : Option ShardTransfer :=
  s.transfers.find? (fun t => k.check t)

/-- Error taxonomy surfaced by the coordinator (`CollectionError`). -/
inductive CollErr where
  | badInput (msg : String)
  | badRequest (description : String)
  | notFound (what : String)
  | serviceError (msg : String)
  | timeoutErr (description : String)
  | inconsistentShardFailure (shardsTotal shardsFailed : Nat) (firstErr : CollErr)
deriving DecidableEq, Repr

/-- Is this error a `BadInput`? -/
def CollErr.isBadInput : CollErr → Bool
  | .badInput _ => true
  | _ => false

deriving instance DecidableEq for Except

/-! ## Shard-transfer termination (`finish` / `abort`) -/

/-- `revert_proxy_shard_to_local`.  Modelled from the spec: unwrap an
outgoing-transfer forward proxy back to a plain local shard; a no-op when
the local slot is not a proxy (the function is missing from `src/`, only
its caller `_abort_shard_transfer` is present). -/
def revertProxySlot : LocalSlot → LocalSlot
  | .ForwardProxy _ => .LocalReady
  | slot => slot

/-- `revert_proxy_shard_to_local` lifted to a replica set. -/
def revertProxyShardToLocal (rs : ReplicaSetSt) : ReplicaSetSt :=
  { rs with localSlot := revertProxySlot rs.localSlot }

/-- `handle_transferred_shard_proxy`.  Modelled from the spec (section 4.5,
sender step 3): on completion, unwrap the forward proxy to a plain local
shard when `sync = false`, or replace it with a remote stub pointing at the
destination when `sync = true`; a no-op when no proxy is present. -/
def handleTransferredShardProxy (t : ShardTransfer) (rs : ReplicaSetSt) : ReplicaSetSt :=
  match rs.localSlot with
  | .ForwardProxy _ =>
      { rs with localSlot := if t.sync then .RemoteStub t.dst else .LocalReady }
  | _ => rs

/-- `finalize_partial_shard`.  Modelled from the spec (section 4.5,
receiver): on completion the Partial replica of this peer is promoted to
Active; a no-op otherwise. -/
def finalizePartialShard (thisPeer : Nat) (rs : ReplicaSetSt) : ReplicaSetSt :=
  if peerStateOf rs thisPeer = some .Partial then
    { rs with peers := setPeerState rs.peers thisPeer .Active }
  else
    rs

/-- `change_remote_shard_route`.  Modelled from the spec (section 4.5,
third party): retarget this peer's remote stub for the shard from `src` to
`dst`, or insert one pointing at `dst` when none targets `src`. -/
def changeRemoteRoute (src dst : Nat) (rs : ReplicaSetSt) : ReplicaSetSt :=
  if src ∈ rs.remotes then
    { rs with remotes := rs.remotes.map (fun p => if p = src then dst else p) }
  else if dst ∈ rs.remotes then
    rs
  else
    { rs with remotes := rs.remotes ++ [dst] }

/-- `ReplicaSet::remove_peer(p)`.  Modelled from the spec: remove the
peer's entry; rejected if it would leave zero replicas. -/
def removePeer (rs : ReplicaSetSt) (p : Nat) : Except CollErr ReplicaSetSt :=
  let peers' := rs.peers.eraseP (fun e => e.1 = p)
  if peers'.isEmpty then
    .error (.serviceError "Removing peer would leave shard with no replicas")
  else
    .ok { rs with peers := peers' }

/-- Embedding of `Collection::_abort_shard_transfer`
(collection.rs:624-662): stop the task (tasks pool abstracted away), fail
with `BadRequest` when the shard does not exist, look the transfer up in
the registry, then for a sync transfer mark the destination Dead and
otherwise remove the destination peer; on the sending peer revert the
forward proxy; finally deregister the key.  The possibly-mutated state is
returned alongside the result. -/
def abortShardTransfer (s : CollectionState) (k : TransferKey) :
    Except CollErr Unit × CollectionState :=
  match getShard s k.shardId with
  | none => (.error (.badRequest "Shard doesn't exist"), s)
  | some rs =>
    let syncFlag := ((findTransfer s k).map (fun t => t.sync)).getD false
    if syncFlag then
      let s1 := updateShard s k.shardId
        (fun rs' => { rs' with peers := setPeerState rs'.peers k.dst .Dead })
      let s2 := if s.thisPeer = k.src then
          updateShard s1 k.shardId revertProxyShardToLocal
        else s1
      (.ok (), removeTransferKey s2 k)
    else
      match removePeer rs k.dst with
      | .error e => (.error e, s)
      | .ok rs' =>
        let s1 := updateShard s k.shardId (fun _ => rs')
        let s2 := if s.thisPeer = k.src then
            updateShard s1 k.shardId revertProxyShardToLocal
          else s1
        (.ok (), removeTransferKey s2 k)

/-- The per-shard transform performed by `finish_shard_transfer`: the
sender unwraps or replaces the forward proxy, the receiver promotes its
Partial replica, and every peer other than the sender reroutes its remote
stub (collection.rs:576-617). -/
def finishShardTransform (thisPeer : Nat) (t : ShardTransfer) (rs : ReplicaSetSt) :
    ReplicaSetSt :=
  let rs1 := if thisPeer = t.src then handleTransferredShardProxy t rs else rs
  let rs2 := if thisPeer = t.dst then finalizePartialShard thisPeer rs1 else rs1
  if thisPeer ≠ t.src then changeRemoteRoute t.src t.dst rs2 else rs2

/-- Embedding of `Collection::finish_shard_transfer`
(collection.rs:566-622): stop the task (tasks pool abstracted away), apply
the sender / receiver / third-party reconciliation to the transferred
shard, and deregister the key. -/
def finishShardTransfer (s : CollectionState) (t : ShardTransfer) :
    Except CollErr Unit × CollectionState :=
  match getShard s t.shardId with
  | none => (.error (.serviceError "Shard doesn't exist"), s)
  | some _ =>
    (.ok (), removeTransferKey (updateShard s t.shardId (finishShardTransform s.thisPeer t)) t.key)

/-! ## `Collection::set_shard_replica_state` -/

/-- Outward effects fired by `set_shard_replica_state`: transfer aborts of
related transfers and recovery transfer requests sent through the
`request_shard_transfer` callback. -/
inductive Event where
  | abortedTransfer (k : TransferKey)
  | requestedTransfer (t : ShardTransfer)
deriving DecidableEq, Repr

/-- The peers whose replica state is Active, as computed by the
last-active check of `set_shard_replica_state` (collection.rs:347-357). -/
def activeReplicas (rs : ReplicaSetSt) : List Nat :=
  ((rs.peers.filter (fun e => e.2 = ReplicaState.Active)).map (fun e => e.1)).dedup

/-- Abort a list of transfers in order, threading the state and stopping
at the first error (the loop of collection.rs:371-376). -/
def abortTransferList (s : CollectionState) :
    List TransferKey → Except CollErr Unit × CollectionState × List Event
  | [] => (.ok (), s, [])
  | k :: rest =>
    match abortShardTransfer s k with
    | (.error e, s') => (.error e, s', [])
    | (.ok _, s') =>
      match abortTransferList s' rest with
      | (r, s'', evs) => (r, s'', .abortedTransfer k :: evs)

/-- Embedding of `Collection::set_shard_replica_state`
(collection.rs:314-417).  Validation: the shard must exist; when
`fromState` is given it must match the peer's current state; a non-Active
target state is refused when the peer is the last Active replica.  Then
the replica state is applied, related transfers are aborted when the peer
went Dead, and — when this peer's own replica went Dead — a sync recovery
transfer is requested from any Active peer.  The result carries the
possibly-mutated state and the outward events. -/
def setShardReplicaState (s : CollectionState) (shardId peer : Nat)
    (st : ReplicaState) (fromState : Option ReplicaState) :
    Except CollErr Unit × CollectionState × List Event :=
  match getShard s shardId with
  | none => (.error (.notFound "shard"), s, [])
  | some rs =>
    if fromState.isSome ∧ peerStateOf rs peer ≠ fromState then
      (.error (.badInput "Replica of shard has unexpected state"), s, [])
    else if st ≠ ReplicaState.Active ∧ (activeReplicas rs).length = 1 ∧
        peer ∈ activeReplicas rs then
      (.error (.badInput "Cannot deactivate the last active replica of shard"), s, [])
    else
      let s1 := updateShard s shardId
        (fun rs' => { rs' with peers := setPeerState rs'.peers peer st })
      let afterAborts :=
        if st = ReplicaState.Dead then
          let related := s1.transfers.filter
            (fun t => t.shardId = shardId ∧ (t.src = peer ∨ t.dst = peer))
          abortTransferList s1 (related.map ShardTransfer.key)
        else
          (.ok (), s1, [])
      match afterAborts with
      | (.error e, s2, evs) => (.error e, s2, evs)
      | (.ok _, s2, evs) =>
        if st = ReplicaState.Dead ∧ s2.thisPeer = peer then
          let transferFrom : Option Nat := match getShard s2 shardId with
            | none => none
            | some rs2 =>
              ((rs2.peers.find? (fun e => e.2 = ReplicaState.Active)).map (fun e => e.1))
          match transferFrom with
          | some fromPeer =>
            (.ok (), s2, evs ++ [.requestedTransfer ⟨shardId, fromPeer, s2.thisPeer, true⟩])
          | none => (.ok (), s2, evs)
        else
          (.ok (), s2, evs)

/-! ## Update aggregation (`Collection::update_from_client`) -/

/-- `Result::is_err()`. -/
def isErrExcept {α : Type} : Except CollErr α → Bool
  | .error _ => true
  | .ok _ => false

/-- Embedding of the result aggregation of `Collection::update_from_client`
(collection.rs:794-819), applied to the per-shard sub-results in shard
order: count the failures; with at least one failure and the first failing
sub-result carrying `err`, return `InconsistentShardFailure` when only a
proper subset failed and `err` itself when all failed; with no failure
return the last sub-result (`results.pop().unwrap()`).  The empty case
mirrors the `Empty update request` guard that precedes dispatch
(collection.rs:780-784). -/
def updateFromClientAggregate (results : List (Except CollErr Nat)) : Except CollErr Nat :=
  let withError := results.countP isErrExcept
  let resultLen := results.length
  if 0 < withError then
    match results.find? isErrExcept with
    | some (.error err) =>
      if withError < resultLen then
        .error (.inconsistentShardFailure resultLen withError err)
      else
        .error err
    | _ => .error (.serviceError "unreachable: a failing sub-result must exist")
  else
    match results.getLast? with
    | some r => r
    | none => .error (.badRequest "Empty update request")

/-! ## Search fan-out and merge -/

/-- A scored point (`segment::types::ScoredPoint`); the f32 score is
abstracted as an integer, only its ordering matters to the coordinator. -/
structure ScoredPoint where
  id : Nat
  score : Int
  payload : Option Nat
  vector : Option Nat
deriving DecidableEq, Repr

/-- Distance ordering of a vector space (`segment::types::Order`). -/
inductive Order where
  | LargeBetter
  | SmallBetter
deriving DecidableEq, Repr

/-- One search request.  `withPayload` is the `is_required` content of the
optional payload interface and `withVector` the `is_some` content of the
optional vector selector, which is all the coordinator inspects. -/
structure SearchRequest where
  vectorName : String
  limit : Nat
  offset : Nat
  withPayload : Option Bool
  withVector : Option Bool
deriving DecidableEq, Repr

/-- `SearchRequestBatch`. -/
structure SearchRequestBatch where
  searches : List SearchRequest
deriving DecidableEq, Repr

/-- A stored record as returned by `retrieve`. -/
structure Record where
  id : Nat
  payload : Option Nat
  vector : Option Nat
deriving DecidableEq, Repr

/-- `PointRequest`. -/
structure PointRequest where
  ids : List Nat
  withPayload : Option Bool
  withVector : Bool
deriving DecidableEq, Repr

/-- The external collaborators of the search path: the shard-holder's
shard list, the per-vector distance ordering from the collection config,
and the per-shard search / retrieve responses (shards are external
components; their responses are oracles). -/
structure SearchEnv where
  shards : List Nat
  vectorOrder : String → Option Order
  shardSearch : Nat → SearchRequestBatch → List (List ScoredPoint)
  shardRetrieve : Nat → PointRequest → List Record

/-- `ShardHolder::target_shard(selection)`.  Modelled from the spec: the
single selected shard when `some`, else every shard. -/
def targetShards (shards : List Nat) (sel : Option Nat) : Except CollErr (List Nat) :=
  match sel with
  | some id => if id ∈ shards then .ok [id] else .error (.notFound "shard")
  | none => .ok shards

/-- Insert into a list sorted descending by `f`, after all existing
elements of greater-or-equal key (stable). -/
def insertDescBy (f : ScoredPoint → Int) (p : ScoredPoint) :
    List ScoredPoint → List ScoredPoint
  | [] => [p]
  | q :: l => if f p ≤ f q then q :: insertDescBy f p l else p :: q :: l

/-- Insert into a list sorted ascending by `f`, after all existing
elements of smaller-or-equal key (stable). -/
def insertAscBy (f : ScoredPoint → Int) (p : ScoredPoint) :
    List ScoredPoint → List ScoredPoint
  | [] => [p]
  | q :: l => if f q ≤ f p then q :: insertAscBy f p l else p :: q :: l

/-- Stable sort, descending by `f`. -/
def sortDescBy (f : ScoredPoint → Int) (l : List ScoredPoint) : List ScoredPoint :=
  l.foldl (fun acc p => insertDescBy f p acc) []

/-- Stable sort, ascending by `f`. -/
def sortAscBy (f : ScoredPoint → Int) (l : List ScoredPoint) : List ScoredPoint :=
  l.foldl (fun acc p => insertAscBy f p acc) []

/-- `peek_top_largest_iterable` / `peek_top_smallest_iterable`.  Modelled
from the spec: the global top `k` of the input under the declared distance
order (these helpers live in the external `segment` crate). -/
def peekTop (ord : Order) (l : List ScoredPoint) (k : Nat) : List ScoredPoint :=
  match ord with
  | .LargeBetter => (sortDescBy (fun p => p.score) l).take k
  | .SmallBetter => (sortAscBy (fun p => p.score) l).take k

/-- The shard-order concatenation step of `merge_from_shards`
(collection.rs:931-937): for every query index, append the per-shard
result lists in shard order. -/
def concatQueryResults (allRes : List (List (List ScoredPoint))) (batchSize : Nat) :
    List (List ScoredPoint) :=
  (List.range batchSize).map (fun i => (allRes.map (fun shardRes => shardRes.getD i [])).flatten)

/-- The offset-trimming step of `merge_from_shards`
(collection.rs:954-963): only for client requests (no shard selection)
with a positive offset, drop the first `offset` elements, clearing the
list when fewer than `offset` are available. -/
def applyOffsetTrim (sel : Option Nat) (offset : Nat) (l : List ScoredPoint) :
    List ScoredPoint :=
  if sel = none ∧ 0 < offset then
    if offset ≤ l.length then l.drop offset else []
  else
    l

/-- `collect::<CollectionResult<Vec<_>>>()`: sequence a list of fallible
results, stopping at the first error. -/
def collectResults {α : Type} : List (Except CollErr α) → Except CollErr (List α)
  | [] => .ok []
  | r :: rest =>
    match r with
    | .error e => .error e
    | .ok v =>
      match collectResults rest with
      | .error e => .error e
      | .ok vs => .ok (v :: vs)

/-- Embedding of `Collection::merge_from_shards` (collection.rs:923-969):
concatenate the per-shard lists per query, take the top
`limit + offset` under the vector's configured distance order, and apply
the client-side offset trim. -/
def mergeFromShards (vectorOrder : String → Option Order)
    (allRes : List (List (List ScoredPoint))) (req : SearchRequestBatch)
    (sel : Option Nat) : Except CollErr (List (List ScoredPoint)) :=
  let merged := concatQueryResults allRes req.searches.length
  collectResults ((merged.zip req.searches).map (fun pr =>
    match vectorOrder pr.2.vectorName with
    | none => .error (.badInput "Vector name not found in config")
    | some ord =>
      .ok (applyOffsetTrim sel pr.2.offset (peekTop ord pr.1 (pr.2.limit + pr.2.offset)))))

/-- Embedding of `Collection::_search_batch` (collection.rs:901-921):
query every target shard with the whole batch and merge. -/
def searchBatchInternal (env : SearchEnv) (req : SearchRequestBatch) (sel : Option Nat) :
    Except CollErr (List (List ScoredPoint)) :=
  match targetShards env.shards sel with
  | .error e => .error e
  | .ok ts => mergeFromShards env.vectorOrder (ts.map (fun sh => env.shardSearch sh req)) req sel

/-- Embedding of `Collection::retrieve` (collection.rs:1123-1150): fan out
to the target shards and concatenate. -/
def retrieve (env : SearchEnv) (preq : PointRequest) (sel : Option Nat) :
    Except CollErr (List Record) :=
  match targetShards env.shards sel with
  | .error e => .error e
  | .ok ts => .ok ((ts.map (fun sh => env.shardRetrieve sh preq)).flatten)

/-- Lookup in the retrieved-records hash map (collect of an iterator:
a later record with the same id overwrites an earlier one). -/
def recordLookup (recs : List Record) (id : Nat) : Option Record :=
  (recs.filter (fun r => r.id = id)).getLast?

/-- The enrichment loop of `fill_search_result_with_payload`
(collection.rs:1005-1017): each scored point takes payload and vector from
the records map, consuming the entry (`remove`), and points without a
record are dropped. -/
def fillLoop (recs : List Record) : List Nat → List ScoredPoint → List ScoredPoint
  | _, [] => []
  | used, p :: rest =>
    if p.id ∈ used then
      fillLoop recs used rest
    else
      match recordLookup recs p.id with
      | some r => { p with payload := r.payload, vector := r.vector } ::
          fillLoop recs (p.id :: used) rest
      | none => fillLoop recs used rest

/-- Embedding of `Collection::fill_search_result_with_payload`
(collection.rs:971-1019): short-circuit when neither payload nor vector is
wanted, otherwise retrieve the surviving ids and enrich. -/
def fillSearchResultWithPayload (env : SearchEnv) (res : List ScoredPoint)
    (wp : Option Bool) (wv : Bool) (sel : Option Nat) :
    Except CollErr (List ScoredPoint) :=
  if wp = some false ∧ wv = false then
    .ok (res.map (fun p => { p with payload := none, vector := none }))
  else
    match retrieve env ⟨res.map (fun p => p.id), wp, wv⟩ sel with
    | .error e => .error e
    | .ok recs => .ok (fillLoop recs [] res)

/-- The phase-1 stripping of the two-phase search path
(collection.rs:867-876): clear `with_payload` and `with_vector` on every
request of the batch. -/
def stripBatch (req : SearchRequestBatch) : SearchRequestBatch :=
  ⟨req.searches.map (fun s => { s with withPayload := none, withVector := none })⟩

/-- `is_payload_required` (collection.rs:836-841): every request of the
batch asks for payload. -/
def isPayloadRequired (req : SearchRequestBatch) : Bool :=
  req.searches.all (fun s => s.withPayload.getD false)

/-- `with_vectors` (collection.rs:842-847): every request of the batch
asks for vectors. -/
def withVectorsAll (req : SearchRequestBatch) : Bool :=
  req.searches.all (fun s => s.withVector.getD false)

/-- `metadata_required` (collection.rs:849). -/
def metadataRequired (req : SearchRequestBatch) : Bool :=
  isPayloadRequired req || withVectorsAll req

/-- `Σ limit` over the batch (collection.rs:851). -/
def sumLimits (req : SearchRequestBatch) : Nat :=
  (req.searches.map (fun s => s.limit)).sum

/-- `Σ offset` over the batch (collection.rs:852). -/
def sumOffsets (req : SearchRequestBatch) : Nat :=
  (req.searches.map (fun s => s.offset)).sum

/-- `PAYLOAD_TRANSFERS_FACTOR_THRESHOLD` (collection.rs:834). -/
def payloadTransfersFactorThreshold : Nat := 10

/-- The metadata-heavy trigger of `search_batch` (collection.rs:849-862):
payload or vectors are requested and the records needed to fill the result
(`shards × Σ(limit+offset)`) exceed the records used (`Σ limit`) by more
than the threshold factor. -/
def isTwoPhaseCondition (shardCount : Nat) (req : SearchRequestBatch) : Bool :=
  metadataRequired req &&
    decide (shardCount * (sumLimits req + sumOffsets req) >
      sumLimits req * payloadTransfersFactorThreshold)

/-- Which of the three `search_batch` paths a request takes. -/
inductive SearchPath where
  | shortcut
  | twoPhase
  | direct
deriving DecidableEq, Repr

/-- The path selection of `Collection::search_batch`
(collection.rs:828-898). -/
def searchBatchPath (env : SearchEnv) (req : SearchRequestBatch) : SearchPath :=
  if req.searches.all (fun s => s.limit = 0) then .shortcut
  else if isTwoPhaseCondition env.shards.length req then .twoPhase
  else .direct

/-- Embedding of `Collection::search_batch` (collection.rs:822-899):
shortcut an all-`limit=0` batch, otherwise run two-phase search (stripped
phase-1 query, then payload/vector enrichment) when the metadata-heavy
trigger fires, and a direct `_search_batch` otherwise. -/
def searchBatch (env : SearchEnv) (req : SearchRequestBatch) (sel : Option Nat) :
    Except CollErr (List (List ScoredPoint)) :=
  if req.searches.all (fun s => s.limit = 0) then .ok []
  else if isTwoPhaseCondition env.shards.length req then
    match searchBatchInternal env (stripBatch req) sel with
    | .error e => .error e
    | .ok wpr =>
      collectResults ((wpr.zip req.searches).map (fun pr =>
        fillSearchResultWithPayload env pr.1 pr.2.withPayload
          (pr.2.withVector.getD false) sel))
  else
    searchBatchInternal env req sel

/-- Embedding of `Collection::search` (collection.rs:1021-1038): empty
result for `limit = 0`, else a single-element `_search_batch` whose first
element is returned. -/
def search (env : SearchEnv) (r : SearchRequest) (sel : Option Nat) :
    Except CollErr (List ScoredPoint) :=
  if r.limit = 0 then .ok []
  else
    match searchBatchInternal env ⟨[r]⟩ sel with
    | .error e => .error e
    | .ok results => .ok (results.headD [])

/-! ## Scroll -/

/-- `ScrollRequest`; `hasFilter` stands for the opaque filter payload. -/
structure ScrollRequest where
  offset : Option Nat
  limit : Option Nat
  withPayload : Option Bool
  withVector : Bool
  hasFilter : Bool
deriving DecidableEq, Repr

/-- Modelled from the spec: the default page size taken from
`ScrollRequest::default()` when the request leaves `limit` unset (the
default lives outside src/); its value does not matter to the claims. -/
def scrollDefaultLimit : Nat := 10

/-- `ScrollResult`. -/
structure ScrollResult where
  points : List Record
  nextPageOffset : Option Nat
deriving DecidableEq, Repr

/-- The external collaborators of the scroll path: the shard list and the
per-shard scroll responses (shard, offset, limit). -/
structure ScrollEnv where
  shards : List Nat
  shardScroll : Nat → Option Nat → Nat → List Record

/-- Insert into a list sorted ascending by id, after all existing elements
of smaller-or-equal id (stable). -/
def insertByIdRec (p : Record) : List Record → List Record
  | [] => [p]
  | q :: l => if q.id ≤ p.id then q :: insertByIdRec p l else p :: q :: l

/-- Stable sort of records by id (`itertools::sorted_by_key`, a stable
sort). -/
def sortById (l : List Record) : List Record :=
  l.foldl (fun acc p => insertByIdRec p acc) []

/-- Embedding of `Collection::scroll_by` (collection.rs:1040-1100):
resolve the effective limit, reject an explicit limit of 0 before any
shard is contacted, ask every target shard for `limit + 1` points, flatten
and stably sort by id, take `limit + 1`, and derive `next_page_offset`
from the extra point when one exists.  The second component lists the
shards contacted. -/
def scrollBy (env : ScrollEnv) (req : ScrollRequest) (sel : Option Nat) :
    Except CollErr ScrollResult × List Nat :=
  let limit := req.limit.getD scrollDefaultLimit
  if limit = 0 then
    (.error (.badRequest "Limit cannot be 0"), [])
  else
    let limit1 := limit + 1
    match targetShards env.shards sel with
    | .error e => (.error e, [])
    | .ok ts =>
      let retrievedPoints := ts.map (fun sh => env.shardScroll sh req.offset limit1)
      let points := (sortById retrievedPoints.flatten).take limit1
      if points.length < limit1 then
        (.ok ⟨points, none⟩, ts)
      else
        (.ok ⟨points.dropLast, (points.getLast?).map (fun p => p.id)⟩, ts)

end Qdrant

namespace Qdrant

/-! ## Theorems: version gate -/

/-- C5: `can_upgrade_storage(stored, app)` returns true iff the majors are
equal, the minors are equal, and `app.patch ≤ stored.patch + 1`. -/
theorem canUpgradeStorage_iff (stored app : SemVer) :
    canUpgradeStorage stored app = true ↔
      stored.major = app.major ∧ stored.minor = app.minor ∧
        app.patch ≤ stored.patch + 1 := by
  unfold canUpgradeStorage
  by_cases h1 : stored.major = app.major
  · by_cases h2 : stored.minor = app.minor
    · by_cases h3 : stored.patch + 1 < app.patch
      · simp only [h1, h2, h3, ne_eq, not_true_eq_false, if_false, if_true, ite_self]
        simp [h1, h2]
        omega
      · simp [h1, h2, h3]
        omega
    · simp [h1, h2]
  · simp [h1]

/-! ## Theorems: last-active safety of `set_shard_replica_state` -/

theorem activeReplicas_eq_of_filter (rs : ReplicaSetSt) (peer : Nat)
    (h : (rs.peers.filter (fun e => e.2 = ReplicaState.Active)).map (fun e => e.1) = [peer]) :
    activeReplicas rs = [peer] := by
  unfold activeReplicas
  rw [h]
  rw [List.dedup_cons_of_not_mem (by simp), List.dedup_nil]

/-- C1: a `set_shard_replica_state` call that would deactivate the last
Active replica of a shard returns a `BadInput` error, leaves the whole
collection state (in particular the shard's replica-state map) unchanged,
and fires no transfer abort and no transfer request. -/
theorem setShardReplicaState_lastActive_rejected (s : CollectionState)
    (shardId peer : Nat) (st : ReplicaState) (fromState : Option ReplicaState)
    (rs : ReplicaSetSt) (hshard : getShard s shardId = some rs)
    (hst : st ≠ ReplicaState.Active)
    (hactive : (rs.peers.filter (fun e => e.2 = ReplicaState.Active)).map
      (fun e => e.1) = [peer]) :
    ∃ msg, setShardReplicaState s shardId peer st fromState =
      (.error (.badInput msg), s, []) := by
  have hact : activeReplicas rs = [peer] := activeReplicas_eq_of_filter rs peer hactive
  unfold setShardReplicaState
  rw [hshard]
  dsimp only
  by_cases hfrom : fromState.isSome ∧ peerStateOf rs peer ≠ fromState
  · exact ⟨"Replica of shard has unexpected state", by rw [if_pos hfrom]⟩
  · refine ⟨"Cannot deactivate the last active replica of shard", ?_⟩
    rw [if_neg hfrom, if_pos ⟨hst, by rw [hact]; simp, by rw [hact]; simp⟩]

/-- Closed witness for the last-active rejection: a one-shard collection
where peer 1 is the only Active replica refuses to mark peer 1 Dead. -/
theorem setShardReplicaState_lastActive_rejected_witness :
    ∃ msg,
      setShardReplicaState
        ⟨1, [(0, ⟨[(1, .Active), (2, .Dead)], .LocalReady, [2]⟩)],
          [⟨0, 1, 2, false⟩]⟩ 0 1 ReplicaState.Dead none =
      (.error (.badInput msg),
        ⟨1, [(0, ⟨[(1, .Active), (2, .Dead)], .LocalReady, [2]⟩)],
          [⟨0, 1, 2, false⟩]⟩, []) :=
  setShardReplicaState_lastActive_rejected
    ⟨1, [(0, ⟨[(1, .Active), (2, .Dead)], .LocalReady, [2]⟩)], [⟨0, 1, 2, false⟩]⟩
    0 1 ReplicaState.Dead none
    ⟨[(1, .Active), (2, .Dead)], .LocalReady, [2]⟩
    (by decide) (by decide) (by decide)

/-! ## Theorems: update aggregation -/

/-- C3: aggregating `n ≥ 1` per-shard sub-results of `update_from_client`:
when every sub-result fails the first error is returned as-is; when only a
proper subset fails the result is `InconsistentShardFailure` with
`shards_total` the number of sub-results, `shards_failed` the number of
failures, and `first_err` the first error in shard order; when nothing
fails one of the successful sub-results (the last) is returned. -/
theorem updateFromClientAggregate_spec (results : List (Except CollErr Nat))
    (hne : results ≠ []) :
    ((∀ r ∈ results, isErrExcept r = true) →
      ∃ e, results.head? = some (.error e) ∧
        updateFromClientAggregate results = .error e) ∧
    ((∃ r ∈ results, isErrExcept r = true) → (∃ r ∈ results, isErrExcept r = false) →
      ∃ e, results.find? isErrExcept = some (.error e) ∧
        updateFromClientAggregate results =
          .error (.inconsistentShardFailure results.length
            (results.countP isErrExcept) e)) ∧
    ((∀ r ∈ results, isErrExcept r = false) →
      ∃ r, results.getLast? = some r ∧ updateFromClientAggregate results = r ∧
        isErrExcept r = false) := by
  refine ⟨?_, ?_, ?_⟩
  · intro hall
    match results, hne with
    | r :: rest, _ =>
      have hr : isErrExcept r = true := hall r (List.mem_cons_self r rest)
      match r, hr with
      | .error e, _ =>
        refine ⟨e, rfl, ?_⟩
        unfold updateFromClientAggregate
        have hcount : (Except.error e :: rest).countP isErrExcept =
            (Except.error e :: rest).length := List.countP_eq_length.mpr hall
        have hpos : 0 < (Except.error e :: rest).countP isErrExcept := by
          rw [hcount]; simp
        rw [if_pos hpos]
        have hfind : (Except.error e :: rest).find? isErrExcept =
            some (.error e) := by
          rw [List.find?_cons_of_pos]; rfl
        rw [hfind]
        dsimp only
        rw [if_neg (by omega)]
  · intro ⟨re, hre, herr⟩ ⟨ro, hro, hok⟩
    have hpos : 0 < results.countP isErrExcept :=
      List.countP_pos_iff.mpr ⟨re, hre, herr⟩
    have hissome : (results.find? isErrExcept).isSome :=
      List.find?_isSome.mpr ⟨re, hre, herr⟩
    match hfind : results.find? isErrExcept with
    | some r =>
      have hr : isErrExcept r = true := List.find?_some hfind
      match r, hr with
      | .error e, _ =>
        refine ⟨e, rfl, ?_⟩
        unfold updateFromClientAggregate
        rw [if_pos hpos, hfind]
        have hlt : results.countP isErrExcept < results.length := by
          have hle : results.countP isErrExcept ≤ results.length :=
            List.countP_le_length isErrExcept
          rcases Nat.eq_or_lt_of_le hle with heq | hlt
          · exact absurd (List.countP_eq_length.mp heq ro hro) (by simp [hok])
          · exact hlt
        dsimp only
        rw [if_pos hlt]
    | none => rw [hfind] at hissome; simp at hissome
  · intro hall
    have hzero : results.countP isErrExcept = 0 :=
      List.countP_eq_zero.mpr (by intro a ha; simp [hall a ha])
    match hlast : results.getLast? with
    | some r =>
      refine ⟨r, rfl, ?_, hall r (List.mem_of_mem_getLast? hlast)⟩
      unfold updateFromClientAggregate
      rw [if_neg (by omega), hlast]
    | none =>
      rw [List.getLast?_eq_none_iff] at hlast
      exact absurd hlast hne

/-- Closed witness for the aggregation: a two-shard batch where shard 0
succeeds and shard 1 fails yields the inconsistent-shard failure with
total 2, failed 1 and the shard-1 error first. -/
theorem updateFromClientAggregate_spec_witness :
    ∃ e, ([.ok 7, .error (.badInput "v")] :
        List (Except CollErr Nat)).find? isErrExcept = some (.error e) ∧
      updateFromClientAggregate [.ok 7, .error (.badInput "v")] =
        .error (.inconsistentShardFailure 2 1 e) :=
  ((updateFromClientAggregate_spec [.ok 7, .error (.badInput "v")]
      (by decide)).2.1
    ⟨.error (.badInput "v"), by decide, by decide⟩
    ⟨.ok 7, by decide, by decide⟩)

/-! ## Association-list helper lemmas -/

theorem find?_map_update (l : List (Nat × ReplicaSetSt)) (id : Nat)
    (f : ReplicaSetSt → ReplicaSetSt) :
    (l.map (fun e => if e.1 = id then (e.1, f e.2) else e)).find? (fun e => e.1 = id) =
      (l.find? (fun e => e.1 = id)).map (fun e => (e.1, f e.2)) := by
  induction l with
  | nil => rfl
  | cons h t ih =>
    by_cases hh : h.1 = id
    · simp [hh, List.find?_cons]
    · simp [hh, List.find?_cons, ih]

theorem getShard_updateShard_self (s : CollectionState) (id : Nat)
    (f : ReplicaSetSt → ReplicaSetSt) :
    getShard (updateShard s id f) id = (getShard s id).map f := by
  unfold getShard updateShard
  dsimp only
  rw [find?_map_update]
  cases s.shards.find? (fun e => e.1 = id) <;> rfl

theorem transfers_updateShard (s : CollectionState) (id : Nat)
    (f : ReplicaSetSt → ReplicaSetSt) : (updateShard s id f).transfers = s.transfers := rfl

theorem getShard_removeTransferKey (s : CollectionState) (k : TransferKey) (id : Nat) :
    getShard (removeTransferKey s k) id = getShard s id := rfl

theorem find?_replace_self (l : List (Nat × ReplicaState)) (p : Nat) (st : ReplicaState)
    (hany : l.any (fun e => e.1 = p) = true) :
    (l.map (fun e => if e.1 = p then (p, st) else e)).find? (fun e => e.1 = p) =
      some (p, st) := by
  induction l with
  | nil => simp at hany
  | cons h t ih =>
    by_cases hh : h.1 = p
    · simp [hh, List.find?_cons]
    · have ht : t.any (fun e => e.1 = p) = true := by
        simpa [List.any_cons, hh] using hany
      simp [hh, List.find?_cons, ih ht]

theorem find?_setPeerState_self (peers : List (Nat × ReplicaState)) (p : Nat)
    (st : ReplicaState) :
    ((setPeerState peers p st).find? (fun e => e.1 = p)).map (fun e => e.2) = some st := by
  unfold setPeerState
  by_cases hany : peers.any (fun e => e.1 = p)
  · rw [if_pos hany, find?_replace_self peers p st hany]
    rfl
  · rw [if_neg hany]
    have hnone : peers.find? (fun e => e.1 = p) = none := by
      rw [List.find?_eq_none]
      intro x hx hpx
      exact hany (List.any_eq_true.mpr ⟨x, hx, hpx⟩)
    rw [List.find?_append, hnone]
    simp [List.find?_cons]

theorem find?_replace_other (l : List (Nat × ReplicaState)) (p : Nat) (st : ReplicaState)
    (q : Nat) (hq : q ≠ p) :
    (l.map (fun e => if e.1 = p then (p, st) else e)).find? (fun e => e.1 = q) =
      l.find? (fun e => e.1 = q) := by
  have hpq : ¬ (p = q) := fun hc => hq hc.symm
  induction l with
  | nil => rfl
  | cons h t ih =>
    rw [List.map_cons]
    by_cases hh : h.1 = p
    · have hhq : ¬ (h.1 = q) := by rw [hh]; exact hpq
      rw [if_pos hh, List.find?_cons, List.find?_cons]
      simp only [decide_eq_false hpq, decide_eq_false hhq]
      exact ih
    · rw [if_neg hh, List.find?_cons, List.find?_cons]
      by_cases hq2 : h.1 = q
      · simp [hq2]
      · simp only [decide_eq_false hq2]
        exact ih

theorem find?_setPeerState_other (peers : List (Nat × ReplicaState)) (p : Nat)
    (st : ReplicaState) (q : Nat) (hq : q ≠ p) :
    (setPeerState peers p st).find? (fun e => e.1 = q) =
      peers.find? (fun e => e.1 = q) := by
  unfold setPeerState
  by_cases hany : peers.any (fun e => e.1 = p)
  · rw [if_pos hany]
    exact find?_replace_other peers p st q hq
  · rw [if_neg hany, List.find?_append]
    have hpq : ¬ (p = q) := fun hc => hq hc.symm
    have hsingle : ([(p, st)].find? (fun e => e.1 = q)) = none := by
      simp [List.find?_cons, hpq]
    rw [hsingle]
    cases peers.find? (fun e => e.1 = q) <;> rfl

theorem find?_eraseP_self (l : List (Nat × ReplicaState)) (p : Nat)
    (hnd : (l.map (fun e => e.1)).Nodup) :
    (l.eraseP (fun e => e.1 = p)).find? (fun e => e.1 = p) = none := by
  induction l with
  | nil => rfl
  | cons h t ih =>
    rw [List.map_cons, List.nodup_cons] at hnd
    by_cases hh : h.1 = p
    · rw [List.eraseP_cons, decide_eq_true hh, cond_true]
      rw [List.find?_eq_none]
      intro x hx hpx
      apply hnd.1
      simp only [decide_eq_true_eq] at hpx
      rw [hh, ← hpx]
      exact List.mem_map_of_mem (fun e => e.1) hx
    · rw [List.eraseP_cons, decide_eq_false hh, cond_false, List.find?_cons,
        decide_eq_false hh]
      exact ih hnd.2

theorem find?_eraseP_other (l : List (Nat × ReplicaState)) (p q : Nat) (hq : q ≠ p) :
    (l.eraseP (fun e => e.1 = p)).find? (fun e => e.1 = q) =
      l.find? (fun e => e.1 = q) := by
  induction l with
  | nil => rfl
  | cons h t ih =>
    by_cases hh : h.1 = p
    · have hhq : ¬ (h.1 = q) := by rw [hh]; exact fun hc => hq hc.symm
      rw [List.eraseP_cons, decide_eq_true hh, cond_true, List.find?_cons,
        decide_eq_false hhq]
    · rw [List.eraseP_cons, decide_eq_false hh, cond_false, List.find?_cons,
        List.find?_cons]
      by_cases hq2 : h.1 = q
      · rw [decide_eq_true hq2]
      · rw [decide_eq_false hq2]
        exact ih

theorem eraseP_ne_nil (l : List (Nat × ReplicaState)) (p : Nat)
    (e : Nat × ReplicaState) (he : e ∈ l) (hne : ¬ (e.1 = p)) :
    l.eraseP (fun e => e.1 = p) ≠ [] := by
  induction l with
  | nil => cases he
  | cons h t ih =>
    rw [List.eraseP_cons]
    by_cases hh : h.1 = p
    · rw [decide_eq_true hh, cond_true]
      rcases List.mem_cons.mp he with rfl | ht
      · exact absurd hh hne
      · exact List.ne_nil_of_mem ht
    · rw [decide_eq_false hh, cond_false]
      exact List.cons_ne_nil h _

theorem transfers_removeTransferKey (s : CollectionState) (k : TransferKey) :
    (removeTransferKey s k).transfers = s.transfers.filter (fun t => ¬ k.check t) := rfl

theorem filter_idem {α : Type} (p : α → Bool) (l : List α) :
    (l.filter p).filter p = l.filter p := by
  induction l with
  | nil => rfl
  | cons a t ih =>
    by_cases h : p a <;> simp [List.filter_cons, h, ih]

theorem ReplicaSetSt.ext' {a b : ReplicaSetSt} (h1 : a.peers = b.peers)
    (h2 : a.localSlot = b.localSlot) (h3 : a.remotes = b.remotes) : a = b := by
  cases a; cases b
  cases h1; cases h2; cases h3
  rfl

/-! ## Field-preservation and idempotence lemmas for transfer finishing -/

theorem handleProxy_peers (t : ShardTransfer) (rs : ReplicaSetSt) :
    (handleTransferredShardProxy t rs).peers = rs.peers := by
  unfold handleTransferredShardProxy
  cases rs.localSlot <;> rfl

theorem handleProxy_remotes (t : ShardTransfer) (rs : ReplicaSetSt) :
    (handleTransferredShardProxy t rs).remotes = rs.remotes := by
  unfold handleTransferredShardProxy
  cases rs.localSlot <;> rfl

theorem finalize_slot (tp : Nat) (rs : ReplicaSetSt) :
    (finalizePartialShard tp rs).localSlot = rs.localSlot := by
  unfold finalizePartialShard
  split <;> rfl

theorem finalize_remotes (tp : Nat) (rs : ReplicaSetSt) :
    (finalizePartialShard tp rs).remotes = rs.remotes := by
  unfold finalizePartialShard
  split <;> rfl

theorem route_slot (src dst : Nat) (rs : ReplicaSetSt) :
    (changeRemoteRoute src dst rs).localSlot = rs.localSlot := by
  unfold changeRemoteRoute
  split
  · rfl
  · split <;> rfl

theorem route_peers (src dst : Nat) (rs : ReplicaSetSt) :
    (changeRemoteRoute src dst rs).peers = rs.peers := by
  unfold changeRemoteRoute
  split
  · rfl
  · split <;> rfl

theorem handleProxy_not_proxy (t : ShardTransfer) (rs : ReplicaSetSt) (d : Nat) :
    (handleTransferredShardProxy t rs).localSlot ≠ LocalSlot.ForwardProxy d := by
  obtain ⟨pe, sl, re⟩ := rs
  unfold handleTransferredShardProxy
  cases sl <;> dsimp only
  case ForwardProxy e => cases t.sync <;> simp
  all_goals simp

theorem handleProxy_eq_self (t : ShardTransfer) (rs : ReplicaSetSt)
    (h : ∀ d, rs.localSlot ≠ LocalSlot.ForwardProxy d) :
    handleTransferredShardProxy t rs = rs := by
  obtain ⟨pe, sl, re⟩ := rs
  unfold handleTransferredShardProxy
  cases sl <;> dsimp only
  case ForwardProxy d => exact absurd rfl (h d)

theorem handle_slot_congr (t : ShardTransfer) {a b : ReplicaSetSt}
    (h : a.localSlot = b.localSlot) :
    (handleTransferredShardProxy t a).localSlot =
      (handleTransferredShardProxy t b).localSlot := by
  obtain ⟨pa, sa, ra⟩ := a
  obtain ⟨pb, sb, rb⟩ := b
  dsimp only at h
  subst h
  unfold handleTransferredShardProxy
  cases sa <;> rfl

theorem finalize_not_partial (tp : Nat) (rs : ReplicaSetSt) :
    peerStateOf (finalizePartialShard tp rs) tp ≠ some ReplicaState.Partial := by
  unfold finalizePartialShard
  by_cases h : peerStateOf rs tp = some ReplicaState.Partial
  · rw [if_pos h]
    have hA : peerStateOf
        { rs with peers := setPeerState rs.peers tp ReplicaState.Active } tp =
        some ReplicaState.Active := by
      unfold peerStateOf
      exact find?_setPeerState_self rs.peers tp _
    rw [hA]
    simp
  · rw [if_neg h]
    exact h

theorem finalize_peers_congr (tp : Nat) {a b : ReplicaSetSt} (h : a.peers = b.peers) :
    (finalizePartialShard tp a).peers = (finalizePartialShard tp b).peers := by
  unfold finalizePartialShard peerStateOf
  rw [h]
  split
  · dsimp only
  · exact h

theorem finalizePartialShard_idem (tp : Nat) (rs : ReplicaSetSt) :
    finalizePartialShard tp (finalizePartialShard tp rs) = finalizePartialShard tp rs := by
  unfold finalizePartialShard
  by_cases h : peerStateOf rs tp = some ReplicaState.Partial
  · rw [if_pos h]
    rw [if_neg ?_]
    have hA : peerStateOf
        { rs with peers := setPeerState rs.peers tp ReplicaState.Active } tp =
        some ReplicaState.Active := by
      unfold peerStateOf
      exact find?_setPeerState_self rs.peers tp _
    rw [hA]
    simp
  · rw [if_neg h, if_neg h]

theorem mem_map_replace_self {src dst : Nat} (hne : src ≠ dst) (l : List Nat) :
    src ∉ l.map (fun p => if p = src then dst else p) := by
  intro hm
  rcases List.mem_map.mp hm with ⟨p, _, hep⟩
  by_cases h : p = src
  · rw [if_pos h] at hep
    exact hne hep.symm
  · rw [if_neg h] at hep
    exact h hep

theorem mem_map_replace_dst {src dst : Nat} (l : List Nat) (h : src ∈ l) :
    dst ∈ l.map (fun p => if p = src then dst else p) :=
  List.mem_map.mpr ⟨src, h, by rw [if_pos rfl]⟩

theorem map_replace_self_eq (src : Nat) (l : List Nat) :
    l.map (fun p => if p = src then src else p) = l := by
  induction l with
  | nil => rfl
  | cons a t ih => by_cases h : a = src <;> simp [h, ih]

theorem route_remotes_congr (src dst : Nat) {a b : ReplicaSetSt}
    (h : a.remotes = b.remotes) :
    (changeRemoteRoute src dst a).remotes = (changeRemoteRoute src dst b).remotes := by
  unfold changeRemoteRoute
  rw [h]
  split
  · rfl
  · split
    · exact h
    · rfl

theorem changeRemoteRoute_idem (src dst : Nat) (rs : ReplicaSetSt) :
    changeRemoteRoute src dst (changeRemoteRoute src dst rs) =
      changeRemoteRoute src dst rs := by
  obtain ⟨pe, sl, re⟩ := rs
  unfold changeRemoteRoute
  dsimp only
  by_cases h1 : src ∈ re
  · rw [if_pos h1]
    dsimp only
    by_cases hsd : src = dst
    · subst hsd
      rw [map_replace_self_eq, if_pos h1, map_replace_self_eq]
    · rw [if_neg (mem_map_replace_self hsd re),
        if_pos (mem_map_replace_dst re h1)]
  · rw [if_neg h1]
    by_cases h2 : dst ∈ re
    · rw [if_pos h2]
      dsimp only
      rw [if_neg h1, if_pos h2]
    · rw [if_neg h2]
      dsimp only
      by_cases hsd : src = dst
      · subst hsd
        rw [if_pos (List.mem_append_right _ (List.mem_singleton.mpr rfl)),
          map_replace_self_eq]
      · rw [if_neg ?notmem,
          if_pos (List.mem_append_right _ (List.mem_singleton.mpr rfl))]
        case notmem =>
          intro hc
          rcases List.mem_append.mp hc with hl | hr
          · exact h1 hl
          · exact hsd (List.mem_singleton.mp hr)

theorem revertProxySlot_idem (slot : LocalSlot) :
    revertProxySlot (revertProxySlot slot) = revertProxySlot slot := by
  cases slot <;> rfl

theorem revertProxyShardToLocal_idem (rs : ReplicaSetSt) :
    revertProxyShardToLocal (revertProxyShardToLocal rs) = revertProxyShardToLocal rs := by
  unfold revertProxyShardToLocal
  dsimp only
  rw [revertProxySlot_idem]

/-! ## Theorems: transfer abort -/

/-- C4: aborting a registered shard transfer whose shard exists (with the
natural well-formedness that the peer map has no duplicate keys and holds
a peer besides the destination): a sync transfer leaves the destination
peer present with state Dead, a non-sync transfer removes the destination
entry; entries of other peers are untouched; on the sending peer the
forward proxy is reverted to a plain local shard; the call succeeds and
deregisters the key. -/
theorem abortShardTransfer_spec (s : CollectionState) (k : TransferKey)
    (rs : ReplicaSetSt) (tr : ShardTransfer)
    (hshard : getShard s k.shardId = some rs)
    (htr : findTransfer s k = some tr)
    (hnd : (rs.peers.map (fun e => e.1)).Nodup)
    (hother : ∃ e ∈ rs.peers, ¬ (e.1 = k.dst)) :
    ∃ s', abortShardTransfer s k = (.ok (), s') ∧
      s'.transfers = s.transfers.filter (fun t => ¬ k.check t) ∧
      ∃ rs', getShard s' k.shardId = some rs' ∧
        (tr.sync = true → peerStateOf rs' k.dst = some ReplicaState.Dead) ∧
        (tr.sync = false → peerStateOf rs' k.dst = none) ∧
        (∀ q, q ≠ k.dst → peerStateOf rs' q = peerStateOf rs q) ∧
        (s.thisPeer = k.src → rs'.localSlot = revertProxySlot rs.localSlot) ∧
        (s.thisPeer ≠ k.src → rs'.localSlot = rs.localSlot) := by
  unfold abortShardTransfer
  rw [hshard, htr]
  dsimp only
  simp only [Option.map_some', Option.getD_some]
  by_cases hsync : tr.sync = true
  case neg =>
    -- non-sync: remove the destination peer
    have hsf : tr.sync = false := by rwa [Bool.not_eq_true] at hsync
    rw [if_neg hsync]
    unfold removePeer
    obtain ⟨e, he, hep⟩ := hother
    have hne : rs.peers.eraseP (fun e => e.1 = k.dst) ≠ [] :=
      eraseP_ne_nil rs.peers k.dst e he hep
    rw [if_neg (by rw [List.isEmpty_iff]; exact hne)]
    dsimp only
    by_cases hthis : s.thisPeer = k.src
    · rw [if_pos hthis]
      refine ⟨_, rfl,
        by rw [transfers_removeTransferKey, transfers_updateShard, transfers_updateShard], ?_⟩
      refine ⟨revertProxyShardToLocal ⟨rs.peers.eraseP (fun e => e.1 = k.dst), rs.localSlot, rs.remotes⟩, ?_, ?_⟩
      · rw [getShard_removeTransferKey, getShard_updateShard_self,
          getShard_updateShard_self, hshard]
        rfl
      · refine ⟨by intro hc; exact absurd hc hsync, ?_, ?_, ?_, ?_⟩
        · intro _
          unfold peerStateOf revertProxyShardToLocal
          dsimp only
          rw [find?_eraseP_self rs.peers k.dst hnd]
          rfl
        · intro q hq
          unfold peerStateOf revertProxyShardToLocal
          dsimp only
          rw [find?_eraseP_other rs.peers k.dst q hq]
        · intro _; rfl
        · intro hc; exact absurd hthis hc
    · rw [if_neg hthis]
      refine ⟨_, rfl, by rw [transfers_removeTransferKey, transfers_updateShard], ?_⟩
      refine ⟨⟨rs.peers.eraseP (fun e => e.1 = k.dst), rs.localSlot, rs.remotes⟩, ?_, ?_⟩
      · rw [getShard_removeTransferKey, getShard_updateShard_self, hshard]
        rfl
      · refine ⟨by intro hc; exact absurd hc hsync, ?_, ?_, ?_, ?_⟩
        · intro _
          unfold peerStateOf
          dsimp only
          rw [find?_eraseP_self rs.peers k.dst hnd]
          rfl
        · intro q hq
          unfold peerStateOf
          dsimp only
          rw [find?_eraseP_other rs.peers k.dst q hq]
        · intro hc; exact absurd hc hthis
        · intro _; rfl
  · -- sync: mark the destination peer Dead
    rw [if_pos hsync]
    by_cases hthis : s.thisPeer = k.src
    · rw [if_pos hthis]
      refine ⟨_, rfl,
        by rw [transfers_removeTransferKey, transfers_updateShard, transfers_updateShard], ?_⟩
      refine ⟨revertProxyShardToLocal ⟨setPeerState rs.peers k.dst ReplicaState.Dead, rs.localSlot, rs.remotes⟩, ?_, ?_⟩
      · rw [getShard_removeTransferKey, getShard_updateShard_self,
          getShard_updateShard_self, hshard]
        rfl
      · refine ⟨?_, by intro hc; exact absurd (hc ▸ hsync) Bool.false_ne_true, ?_, ?_, ?_⟩
        · intro _
          unfold peerStateOf revertProxyShardToLocal
          dsimp only
          exact find?_setPeerState_self rs.peers k.dst ReplicaState.Dead
        · intro q hq
          unfold peerStateOf revertProxyShardToLocal
          dsimp only
          rw [find?_setPeerState_other rs.peers k.dst ReplicaState.Dead q hq]
        · intro _; rfl
        · intro hc; exact absurd hthis hc
    · rw [if_neg hthis]
      refine ⟨_, rfl, by rw [transfers_removeTransferKey, transfers_updateShard], ?_⟩
      refine ⟨⟨setPeerState rs.peers k.dst ReplicaState.Dead, rs.localSlot, rs.remotes⟩, ?_, ?_⟩
      · rw [getShard_removeTransferKey, getShard_updateShard_self, hshard]
        rfl
      · refine ⟨?_, by intro hc; exact absurd (hc ▸ hsync) Bool.false_ne_true, ?_, ?_, ?_⟩
        · intro _
          unfold peerStateOf
          dsimp only
          exact find?_setPeerState_self rs.peers k.dst ReplicaState.Dead
        · intro q hq
          unfold peerStateOf
          dsimp only
          rw [find?_setPeerState_other rs.peers k.dst ReplicaState.Dead q hq]
        · intro hc; exact absurd hc hthis
        · intro _; rfl

/-- Closed witness for the abort behaviour: aborting the registered sync
transfer of shard 0 from peer 1 to peer 2 on the sending peer. -/
theorem abortShardTransfer_spec_witness :
    ∃ s', abortShardTransfer
        ⟨1, [(0, ⟨[(1, .Active), (2, .Partial)], .ForwardProxy 2, [2]⟩)],
          [⟨0, 1, 2, true⟩]⟩ ⟨0, 1, 2⟩ = (.ok (), s') ∧
      s'.transfers = [⟨0, 1, 2, true⟩].filter
        (fun t => ¬ (TransferKey.mk 0 1 2).check t) ∧
      ∃ rs', getShard s' 0 = some rs' ∧
        ((⟨0, 1, 2, true⟩ : ShardTransfer).sync = true →
          peerStateOf rs' 2 = some ReplicaState.Dead) ∧
        ((⟨0, 1, 2, true⟩ : ShardTransfer).sync = false →
          peerStateOf rs' 2 = none) ∧
        (∀ q, q ≠ 2 → peerStateOf rs' q =
          peerStateOf ⟨[(1, .Active), (2, .Partial)], .ForwardProxy 2, [2]⟩ q) ∧
        ((1 : Nat) = 1 → rs'.localSlot = revertProxySlot (.ForwardProxy 2)) ∧
        ((1 : Nat) ≠ 1 → rs'.localSlot = LocalSlot.ForwardProxy 2) :=
  abortShardTransfer_spec
    ⟨1, [(0, ⟨[(1, .Active), (2, .Partial)], .ForwardProxy 2, [2]⟩)], [⟨0, 1, 2, true⟩]⟩
    ⟨0, 1, 2⟩ ⟨[(1, .Active), (2, .Partial)], .ForwardProxy 2, [2]⟩ ⟨0, 1, 2, true⟩
    (by decide) (by decide) (by decide) ⟨(1, .Active), by decide, by decide⟩

/-! ## Theorems: idempotence of transfer termination (C8) -/

theorem finishShardTransform_slot (tp : Nat) (t : ShardTransfer) (rs : ReplicaSetSt) :
    (finishShardTransform tp t rs).localSlot =
      if tp = t.src then (handleTransferredShardProxy t rs).localSlot
      else rs.localSlot := by
  unfold finishShardTransform
  dsimp only
  by_cases hsrc : tp = t.src
  · rw [if_neg (fun hc => hc hsrc), if_pos hsrc, if_pos hsrc]
    by_cases hdst : tp = t.dst
    · rw [if_pos hdst, finalize_slot]
    · rw [if_neg hdst]
  · rw [if_pos hsrc, if_neg hsrc, if_neg hsrc, route_slot]
    by_cases hdst : tp = t.dst
    · rw [if_pos hdst, finalize_slot]
    · rw [if_neg hdst]

theorem finishShardTransform_peers (tp : Nat) (t : ShardTransfer) (rs : ReplicaSetSt) :
    (finishShardTransform tp t rs).peers =
      if tp = t.dst then (finalizePartialShard tp rs).peers else rs.peers := by
  unfold finishShardTransform
  dsimp only
  by_cases hdst : tp = t.dst
  · rw [if_pos hdst, if_pos hdst]
    by_cases hsrc : tp = t.src
    · rw [if_neg (fun hc => hc hsrc), if_pos hsrc]
      exact finalize_peers_congr tp (handleProxy_peers t rs)
    · rw [if_pos hsrc, if_neg hsrc, route_peers]
  · rw [if_neg hdst, if_neg hdst]
    by_cases hsrc : tp = t.src
    · rw [if_neg (fun hc => hc hsrc), if_pos hsrc, handleProxy_peers]
    · rw [if_pos hsrc, if_neg hsrc, route_peers]

theorem finishShardTransform_remotes (tp : Nat) (t : ShardTransfer) (rs : ReplicaSetSt) :
    (finishShardTransform tp t rs).remotes =
      if tp = t.src then rs.remotes
      else (changeRemoteRoute t.src t.dst rs).remotes := by
  unfold finishShardTransform
  dsimp only
  by_cases hsrc : tp = t.src
  · rw [if_neg (fun hc => hc hsrc), if_pos hsrc, if_pos hsrc]
    by_cases hdst : tp = t.dst
    · rw [if_pos hdst, finalize_remotes, handleProxy_remotes]
    · rw [if_neg hdst, handleProxy_remotes]
  · rw [if_pos hsrc, if_neg hsrc, if_neg hsrc]
    by_cases hdst : tp = t.dst
    · exact route_remotes_congr t.src t.dst (finalize_remotes tp rs ▸ by rw [if_pos hdst])
    · exact route_remotes_congr t.src t.dst (by rw [if_neg hdst])

theorem finishShardTransform_idem (tp : Nat) (t : ShardTransfer) (rs : ReplicaSetSt) :
    finishShardTransform tp t (finishShardTransform tp t rs) =
      finishShardTransform tp t rs := by
  apply ReplicaSetSt.ext'
  · rw [finishShardTransform_peers tp t (finishShardTransform tp t rs)]
    by_cases hdst : tp = t.dst
    · rw [if_pos hdst]
      have h1 : (finishShardTransform tp t rs).peers =
          (finalizePartialShard tp rs).peers := by
        rw [finishShardTransform_peers, if_pos hdst]
      calc (finalizePartialShard tp (finishShardTransform tp t rs)).peers
          = (finalizePartialShard tp (finalizePartialShard tp rs)).peers :=
            finalize_peers_congr tp h1
        _ = (finalizePartialShard tp rs).peers := by rw [finalizePartialShard_idem]
        _ = (finishShardTransform tp t rs).peers := h1.symm
    · rw [if_neg hdst]
  · rw [finishShardTransform_slot tp t (finishShardTransform tp t rs)]
    by_cases hsrc : tp = t.src
    · rw [if_pos hsrc]
      have h1 : (finishShardTransform tp t rs).localSlot =
          (handleTransferredShardProxy t rs).localSlot := by
        rw [finishShardTransform_slot, if_pos hsrc]
      calc (handleTransferredShardProxy t (finishShardTransform tp t rs)).localSlot
          = (handleTransferredShardProxy t (handleTransferredShardProxy t rs)).localSlot :=
            handle_slot_congr t h1
        _ = (handleTransferredShardProxy t rs).localSlot := by
            rw [handleProxy_eq_self t _ (fun d => handleProxy_not_proxy t rs d)]
        _ = (finishShardTransform tp t rs).localSlot := h1.symm
    · rw [if_neg hsrc]
  · rw [finishShardTransform_remotes tp t (finishShardTransform tp t rs)]
    by_cases hsrc : tp = t.src
    · rw [if_pos hsrc]
    · rw [if_neg hsrc]
      have h1 : (finishShardTransform tp t rs).remotes =
          (changeRemoteRoute t.src t.dst rs).remotes := by
        rw [finishShardTransform_remotes, if_neg hsrc]
      calc (changeRemoteRoute t.src t.dst (finishShardTransform tp t rs)).remotes
          = (changeRemoteRoute t.src t.dst (changeRemoteRoute t.src t.dst rs)).remotes :=
            route_remotes_congr t.src t.dst h1
        _ = (changeRemoteRoute t.src t.dst rs).remotes := by rw [changeRemoteRoute_idem]
        _ = (finishShardTransform tp t rs).remotes := h1.symm

/-! ## Shard-holder update algebra -/

theorem updateShard_updateShard (s : CollectionState) (id : Nat)
    (f g : ReplicaSetSt → ReplicaSetSt) :
    updateShard (updateShard s id f) id g = updateShard s id (fun rs => g (f rs)) := by
  unfold updateShard
  dsimp only
  refine congrArg (fun l => CollectionState.mk s.thisPeer l s.transfers) ?_
  rw [List.map_map]
  apply List.map_congr_left
  intro e _
  by_cases h : e.1 = id <;> simp [h]

theorem updateShard_congr (s : CollectionState) (id : Nat)
    {f g : ReplicaSetSt → ReplicaSetSt} (h : ∀ rs, f rs = g rs) :
    updateShard s id f = updateShard s id g := by
  unfold updateShard
  refine congrArg (fun l => CollectionState.mk s.thisPeer l s.transfers) ?_
  apply List.map_congr_left
  intro e _
  by_cases he : e.1 = id <;> simp [he, h]

theorem updateShard_removeTransferKey_comm (s : CollectionState) (k : TransferKey)
    (id : Nat) (f : ReplicaSetSt → ReplicaSetSt) :
    updateShard (removeTransferKey s k) id f = removeTransferKey (updateShard s id f) k := rfl

theorem removeTransferKey_idem (s : CollectionState) (k : TransferKey) :
    removeTransferKey (removeTransferKey s k) k = removeTransferKey s k := by
  unfold removeTransferKey
  dsimp only
  congr 1
  exact filter_idem _ _

theorem thisPeer_updateShard (s : CollectionState) (id : Nat)
    (f : ReplicaSetSt → ReplicaSetSt) : (updateShard s id f).thisPeer = s.thisPeer := rfl

theorem thisPeer_removeTransferKey (s : CollectionState) (k : TransferKey) :
    (removeTransferKey s k).thisPeer = s.thisPeer := rfl

theorem findTransfer_removeTransferKey (s : CollectionState) (k : TransferKey) :
    findTransfer (removeTransferKey s k) k = none := by
  unfold findTransfer removeTransferKey
  dsimp only
  rw [List.find?_eq_none]
  intro t ht hck
  have hmem := List.mem_filter.mp ht
  have hnot := of_decide_eq_true hmem.2
  exact hnot hck

/-- The idempotence half of C8 for `finish_shard_transfer`: a second call
after a successful first call succeeds and changes nothing. -/
theorem finishShardTransfer_idem_aux (s : CollectionState) (t : ShardTransfer)
    (rs : ReplicaSetSt) (hshard : getShard s t.shardId = some rs)
    (s1 : CollectionState) (hfirst : finishShardTransfer s t = (.ok (), s1)) :
    finishShardTransfer s1 t = (.ok (), s1) := by
  unfold finishShardTransfer at hfirst ⊢
  rw [hshard] at hfirst
  dsimp only at hfirst
  have hs1 : s1 =
      removeTransferKey (updateShard s t.shardId (finishShardTransform s.thisPeer t))
        t.key := (congrArg Prod.snd hfirst).symm
  have hget : getShard s1 t.shardId =
      some (finishShardTransform s.thisPeer t rs) := by
    rw [hs1, getShard_removeTransferKey, getShard_updateShard_self, hshard]
    rfl
  rw [hget]
  dsimp only
  have hpeer : s1.thisPeer = s.thisPeer := by
    rw [hs1, thisPeer_removeTransferKey, thisPeer_updateShard]
  rw [hpeer]
  refine congrArg (fun x => ((Except.ok ()), x)) ?_
  rw [hs1]
  rw [updateShard_removeTransferKey_comm, updateShard_updateShard]
  rw [updateShard_congr s t.shardId
    (fun rs' => finishShardTransform_idem s.thisPeer t rs')]
  rw [removeTransferKey_idem]

/-- The idempotence half of C8 that survives for `abort_shard_transfer`:
for a registered non-sync transfer, a second abort after a successful
first call succeeds and changes nothing. -/
theorem abortShardTransfer_idem_nosync (s : CollectionState) (k : TransferKey)
    (rs : ReplicaSetSt) (tr : ShardTransfer)
    (hshard : getShard s k.shardId = some rs)
    (htr : findTransfer s k = some tr) (hsf : tr.sync = false)
    (hnd : (rs.peers.map (fun e => e.1)).Nodup)
    (hother : ∃ e ∈ rs.peers, ¬ (e.1 = k.dst))
    (s1 : CollectionState) (hfirst : abortShardTransfer s k = (.ok (), s1)) :
    abortShardTransfer s1 k = (.ok (), s1) := by
  obtain ⟨e0, he0, hep0⟩ := hother
  have hne : rs.peers.eraseP (fun e => e.1 = k.dst) ≠ [] :=
    eraseP_ne_nil rs.peers k.dst e0 he0 hep0
  have hforall : ∀ x ∈ rs.peers.eraseP (fun e => e.1 = k.dst),
      ¬ ((fun e => decide (e.1 = k.dst)) x = true) :=
    List.find?_eq_none.mp (find?_eraseP_self rs.peers k.dst hnd)
  unfold abortShardTransfer at hfirst
  rw [hshard, htr] at hfirst
  dsimp only at hfirst
  simp only [Option.map_some', Option.getD_some] at hfirst
  simp only [hsf, Bool.false_eq_true, if_false] at hfirst
  unfold removePeer at hfirst
  rw [if_neg (by rw [List.isEmpty_iff]; exact hne)] at hfirst
  dsimp only at hfirst
  by_cases hthis : s.thisPeer = k.src
  case pos =>
    rw [if_pos hthis] at hfirst
    have hs1 : s1 = removeTransferKey (updateShard s k.shardId
        (fun _ => revertProxyShardToLocal
          { rs with peers := rs.peers.eraseP (fun e => e.1 = k.dst) })) k := by
      have h2 : s1 = removeTransferKey (updateShard (updateShard s k.shardId
          (fun _ => ({ rs with peers := rs.peers.eraseP (fun e => e.1 = k.dst) }
            : ReplicaSetSt))) k.shardId revertProxyShardToLocal) k :=
        (congrArg Prod.snd hfirst).symm
      rw [h2, updateShard_updateShard]
    have hget : getShard s1 k.shardId = some (revertProxyShardToLocal
        { rs with peers := rs.peers.eraseP (fun e => e.1 = k.dst) }) := by
      rw [hs1, getShard_removeTransferKey, getShard_updateShard_self, hshard]
      rfl
    have hfind : findTransfer s1 k = none := by
      rw [hs1]
      exact findTransfer_removeTransferKey _ _
    have hpeer : s1.thisPeer = s.thisPeer := by
      rw [hs1, thisPeer_removeTransferKey, thisPeer_updateShard]
    unfold abortShardTransfer
    rw [hget]
    dsimp only
    rw [hfind]
    simp only [Option.map_none', Option.getD_none]
    rw [if_neg Bool.false_ne_true]
    unfold removePeer
    have hXpeers : (revertProxyShardToLocal
        { rs with peers := rs.peers.eraseP (fun e => e.1 = k.dst) }).peers =
        rs.peers.eraseP (fun e => e.1 = k.dst) := rfl
    rw [hXpeers, List.eraseP_of_forall_not hforall]
    rw [if_neg (by rw [List.isEmpty_iff]; exact hne)]
    dsimp only
    have hcollapse : ({ revertProxyShardToLocal
        { rs with peers := rs.peers.eraseP (fun e => e.1 = k.dst) } with
          peers := rs.peers.eraseP (fun e => e.1 = k.dst) } : ReplicaSetSt) =
        revertProxyShardToLocal
          { rs with peers := rs.peers.eraseP (fun e => e.1 = k.dst) } := rfl
    rw [hcollapse, hpeer, if_pos hthis]
    refine congrArg (fun x => ((Except.ok ()), x)) ?_
    rw [updateShard_updateShard,
      revertProxyShardToLocal_idem
        { rs with peers := rs.peers.eraseP (fun e => e.1 = k.dst) }]
    rw [hs1]
    rw [updateShard_removeTransferKey_comm, updateShard_updateShard,
      removeTransferKey_idem]
  case neg =>
    rw [if_neg hthis] at hfirst
    have hs1 : s1 = removeTransferKey (updateShard s k.shardId
        (fun _ => ({ rs with peers := rs.peers.eraseP (fun e => e.1 = k.dst) }
          : ReplicaSetSt))) k :=
      (congrArg Prod.snd hfirst).symm
    have hget : getShard s1 k.shardId = some
        ({ rs with peers := rs.peers.eraseP (fun e => e.1 = k.dst) } : ReplicaSetSt) := by
      rw [hs1, getShard_removeTransferKey, getShard_updateShard_self, hshard]
      rfl
    have hfind : findTransfer s1 k = none := by
      rw [hs1]
      exact findTransfer_removeTransferKey _ _
    have hpeer : s1.thisPeer = s.thisPeer := by
      rw [hs1, thisPeer_removeTransferKey, thisPeer_updateShard]
    unfold abortShardTransfer
    rw [hget]
    dsimp only
    rw [hfind]
    simp only [Option.map_none', Option.getD_none]
    rw [if_neg Bool.false_ne_true]
    unfold removePeer
    have hXpeers : (({ rs with peers := rs.peers.eraseP (fun e => e.1 = k.dst) }
        : ReplicaSetSt)).peers = rs.peers.eraseP (fun e => e.1 = k.dst) := rfl
    rw [hXpeers, List.eraseP_of_forall_not hforall]
    rw [if_neg (by rw [List.isEmpty_iff]; exact hne)]
    dsimp only
    rw [hpeer, if_neg hthis]
    refine congrArg (fun x => ((Except.ok ()), x)) ?_
    rw [hs1]
    rw [updateShard_removeTransferKey_comm, updateShard_updateShard,
      removeTransferKey_idem]

/-- C8 (amended): `finish_shard_transfer` is idempotent for every transfer
whose shard exists; `abort_shard_transfer` is idempotent for registered
non-sync transfers (shard existing, well-formed peer map, destination not
the only peer).  For sync transfers a second abort is not a no-op: the key
was deregistered by the first call, so the sync flag defaults to false and
the destination's Dead entry is removed (see the counterexample). -/
theorem transferTermination_idem :
    (∀ (s : CollectionState) (t : ShardTransfer) (rs : ReplicaSetSt),
      getShard s t.shardId = some rs →
      ∀ s1, finishShardTransfer s t = (.ok (), s1) →
        finishShardTransfer s1 t = (.ok (), s1)) ∧
    (∀ (s : CollectionState) (k : TransferKey) (rs : ReplicaSetSt) (tr : ShardTransfer),
      getShard s k.shardId = some rs → findTransfer s k = some tr → tr.sync = false →
      (rs.peers.map (fun e => e.1)).Nodup → (∃ e ∈ rs.peers, ¬ (e.1 = k.dst)) →
      ∀ s1, abortShardTransfer s k = (.ok (), s1) →
        abortShardTransfer s1 k = (.ok (), s1)) :=
  ⟨fun s t rs h s1 hf => finishShardTransfer_idem_aux s t rs h s1 hf,
   fun s k rs tr h1 h2 h3 h4 h5 s1 hf =>
     abortShardTransfer_idem_nosync s k rs tr h1 h2 h3 h4 h5 s1 hf⟩

/-- Closed witness for the idempotence theorem: a second finish of a
completed transfer and a second abort of a non-sync transfer are no-ops on
concrete states. -/
theorem transferTermination_idem_witness :
    finishShardTransfer
        ⟨3, [(0, ⟨[(1, .Active), (2, .Partial)], .LocalReady, [2]⟩)], []⟩
        ⟨0, 1, 2, false⟩ =
      (.ok (), ⟨3, [(0, ⟨[(1, .Active), (2, .Partial)], .LocalReady, [2]⟩)], []⟩) ∧
    abortShardTransfer
        ⟨5, [(0, ⟨[(1, .Active)], .LocalReady, []⟩)], []⟩ ⟨0, 1, 2⟩ =
      (.ok (), ⟨5, [(0, ⟨[(1, .Active)], .LocalReady, []⟩)], []⟩) :=
  ⟨transferTermination_idem.1
      ⟨3, [(0, ⟨[(1, .Active), (2, .Partial)], .LocalReady, [1]⟩)], [⟨0, 1, 2, false⟩]⟩
      ⟨0, 1, 2, false⟩ ⟨[(1, .Active), (2, .Partial)], .LocalReady, [1]⟩ (by decide)
      ⟨3, [(0, ⟨[(1, .Active), (2, .Partial)], .LocalReady, [2]⟩)], []⟩ (by decide),
   transferTermination_idem.2
      ⟨5, [(0, ⟨[(1, .Active), (2, .Partial)], .LocalReady, []⟩)], [⟨0, 1, 2, false⟩]⟩
      ⟨0, 1, 2⟩ ⟨[(1, .Active), (2, .Partial)], .LocalReady, []⟩ ⟨0, 1, 2, false⟩
      (by decide) (by decide) (by decide) (by decide)
      ⟨(1, .Active), by decide, by decide⟩
      ⟨5, [(0, ⟨[(1, .Active)], .LocalReady, []⟩)], []⟩ (by decide)⟩

/-- C8 counterexample: aborting the same sync transfer twice is not
idempotent — the first abort leaves the destination Dead and deregisters
the key; the second treats the unregistered transfer as non-sync and
removes the destination's entry, changing the replica map while still
succeeding. -/
theorem abortShardTransfer_not_idempotent :
    (abortShardTransfer
      ⟨1, [(0, ⟨[(1, .Active), (2, .Partial)], .ForwardProxy 2, [2]⟩)],
        [⟨0, 1, 2, true⟩]⟩ ⟨0, 1, 2⟩).1 = .ok () ∧
    (abortShardTransfer (abortShardTransfer
      ⟨1, [(0, ⟨[(1, .Active), (2, .Partial)], .ForwardProxy 2, [2]⟩)],
        [⟨0, 1, 2, true⟩]⟩ ⟨0, 1, 2⟩).2 ⟨0, 1, 2⟩).1 = .ok () ∧
    (abortShardTransfer (abortShardTransfer
      ⟨1, [(0, ⟨[(1, .Active), (2, .Partial)], .ForwardProxy 2, [2]⟩)],
        [⟨0, 1, 2, true⟩]⟩ ⟨0, 1, 2⟩).2 ⟨0, 1, 2⟩).2 ≠
      (abortShardTransfer
        ⟨1, [(0, ⟨[(1, .Active), (2, .Partial)], .ForwardProxy 2, [2]⟩)],
          [⟨0, 1, 2, true⟩]⟩ ⟨0, 1, 2⟩).2 := by
  decide

/-! ## Theorems: search merge (C2) -/

theorem collectResults_getElem {α : Type} :
    ∀ (l : List (Except CollErr α)) (out : List α),
      collectResults l = .ok out →
      ∀ (i : Nat) (v : Except CollErr α), l[i]? = some v →
        ∃ a, v = .ok a ∧ out[i]? = some a
  | [], _, _, _, _, hv => by simp at hv
  | r :: rest, out, h, i, v, hv => by
    unfold collectResults at h
    cases r with
    | error e => simp at h
    | ok a =>
      cases hrec : collectResults rest with
      | error e =>
        rw [hrec] at h
        simp at h
      | ok vs =>
        rw [hrec] at h
        simp only [Except.ok.injEq] at h
        subst h
        cases i with
        | zero =>
          simp only [List.getElem?_cons_zero, Option.some.injEq] at hv
          exact ⟨a, hv.symm, by simp⟩
        | succ n =>
          simp only [List.getElem?_cons_succ] at hv
          obtain ⟨b, hb1, hb2⟩ := collectResults_getElem rest vs hrec n v hv
          exact ⟨b, hb1, by simpa using hb2⟩

theorem collectResults_length {α : Type} :
    ∀ (l : List (Except CollErr α)) (out : List α),
      collectResults l = .ok out → out.length = l.length
  | [], out, h => by
    unfold collectResults at h
    simp only [Except.ok.injEq] at h
    rw [← h]
    rfl
  | r :: rest, out, h => by
    unfold collectResults at h
    cases r with
    | error e => simp at h
    | ok a =>
      cases hrec : collectResults rest with
      | error e =>
        rw [hrec] at h
        simp at h
      | ok vs =>
        rw [hrec] at h
        simp only [Except.ok.injEq] at h
        rw [← h]
        simp [collectResults_length rest vs hrec]

/-- C2: for every query of the batch whose distance order resolves, the
merged result at that query is the global top `limit + offset` (under the
configured order) of the shard-order concatenation of the per-shard lists,
and the first `offset` elements are dropped from it exactly when
`shard_selection` is none and `offset > 0` — with fewer than `offset`
elements available the final list is empty. -/
theorem mergeFromShards_spec (vectorOrder : String → Option Order)
    (allRes : List (List (List ScoredPoint))) (req : SearchRequestBatch)
    (sel : Option Nat) (out : List (List ScoredPoint))
    (hok : mergeFromShards vectorOrder allRes req sel = .ok out)
    (i : Nat) (sr : SearchRequest) (hsr : req.searches[i]? = some sr)
    (ord : Order) (hord : vectorOrder sr.vectorName = some ord) :
    out[i]? = some (
      if sel = none ∧ 0 < sr.offset then
        if sr.offset ≤ (peekTop ord
            ((allRes.map (fun shardRes => shardRes.getD i [])).flatten)
            (sr.limit + sr.offset)).length then
          (peekTop ord ((allRes.map (fun shardRes => shardRes.getD i [])).flatten)
            (sr.limit + sr.offset)).drop sr.offset
        else []
      else
        peekTop ord ((allRes.map (fun shardRes => shardRes.getD i [])).flatten)
          (sr.limit + sr.offset)) := by
  obtain ⟨hi, _⟩ := List.getElem?_eq_some_iff.mp hsr
  unfold mergeFromShards at hok
  have hmget : (concatQueryResults allRes req.searches.length)[i]? =
      some ((allRes.map (fun shardRes => shardRes.getD i [])).flatten) := by
    unfold concatQueryResults
    rw [List.getElem?_map, List.getElem?_range hi]
    rfl
  have hzip : ((concatQueryResults allRes req.searches.length).zip req.searches)[i]? =
      some (((allRes.map (fun shardRes => shardRes.getD i [])).flatten), sr) :=
    List.getElem?_zip_eq_some.mpr ⟨hmget, hsr⟩
  have hmap : (((concatQueryResults allRes req.searches.length).zip req.searches).map
      (fun pr =>
        match vectorOrder pr.2.vectorName with
        | none => Except.error (CollErr.badInput "Vector name not found in config")
        | some ord =>
          Except.ok (applyOffsetTrim sel pr.2.offset
            (peekTop ord pr.1 (pr.2.limit + pr.2.offset)))))[i]? =
      some (Except.ok (applyOffsetTrim sel sr.offset
        (peekTop ord ((allRes.map (fun shardRes => shardRes.getD i [])).flatten)
          (sr.limit + sr.offset)))) := by
    rw [List.getElem?_map, hzip, Option.map_some']
    dsimp only
    rw [hord]
  obtain ⟨a, ha1, ha2⟩ := collectResults_getElem _ out hok i _ hmap
  simp only [Except.ok.injEq] at ha1
  rw [ha2, ← ha1]
  rfl

/-- Closed witness for the merge: two shards, one query with limit 1 and
offset 1 under LargeBetter order; the merged page drops the global best
and returns the runner-up. -/
theorem mergeFromShards_spec_witness :
    ([[(⟨2, 7, none, none⟩ : ScoredPoint)]] : List (List ScoredPoint))[0]? =
      some (if (none : Option Nat) = none ∧
          0 < (⟨"v", 1, 1, none, none⟩ : SearchRequest).offset then
        if (⟨"v", 1, 1, none, none⟩ : SearchRequest).offset ≤ (peekTop Order.LargeBetter
            (([[[(⟨1, 9, none, none⟩ : ScoredPoint)]],
               [[(⟨2, 7, none, none⟩ : ScoredPoint)]]].map
              (fun shardRes => shardRes.getD 0 [])).flatten)
            ((⟨"v", 1, 1, none, none⟩ : SearchRequest).limit +
              (⟨"v", 1, 1, none, none⟩ : SearchRequest).offset)).length then
          (peekTop Order.LargeBetter
            (([[[(⟨1, 9, none, none⟩ : ScoredPoint)]],
               [[(⟨2, 7, none, none⟩ : ScoredPoint)]]].map
              (fun shardRes => shardRes.getD 0 [])).flatten)
            ((⟨"v", 1, 1, none, none⟩ : SearchRequest).limit +
              (⟨"v", 1, 1, none, none⟩ : SearchRequest).offset)).drop
            (⟨"v", 1, 1, none, none⟩ : SearchRequest).offset
        else []
      else
        peekTop Order.LargeBetter
          (([[[(⟨1, 9, none, none⟩ : ScoredPoint)]],
             [[(⟨2, 7, none, none⟩ : ScoredPoint)]]].map
            (fun shardRes => shardRes.getD 0 [])).flatten)
          ((⟨"v", 1, 1, none, none⟩ : SearchRequest).limit +
            (⟨"v", 1, 1, none, none⟩ : SearchRequest).offset)) :=
  mergeFromShards_spec (fun _ => some Order.LargeBetter)
    [[[⟨1, 9, none, none⟩]], [[⟨2, 7, none, none⟩]]]
    ⟨[⟨"v", 1, 1, none, none⟩]⟩ none [[⟨2, 7, none, none⟩]] (by decide)
    0 ⟨"v", 1, 1, none, none⟩ (by decide) Order.LargeBetter rfl

/-! ## Theorems: search_batch path selection (C6) -/

/-- C6: for a batch not entirely of limit=0 queries, `search_batch` takes
the metadata-heavy two-phase path iff payload or vectors are requested (in
the all-queries sense the code computes) and
`shards × Σ(limit+offset) > 10 × Σ limit`; on the direct path it runs one
`_search_batch` on the batch itself, and on the two-phase path phase 1 is
`_search_batch` on the payload- and vector-stripped batch whose surviving
ids are then enriched (via `retrieve` inside the fill step). -/
theorem searchBatch_path_spec (env : SearchEnv) (req : SearchRequestBatch)
    (sel : Option Nat) (hnz : ¬ req.searches.all (fun s => s.limit = 0) = true) :
    (searchBatchPath env req = SearchPath.twoPhase ↔
      metadataRequired req = true ∧
        env.shards.length * (sumLimits req + sumOffsets req) > 10 * sumLimits req) ∧
    (searchBatchPath env req = SearchPath.direct →
      searchBatch env req sel = searchBatchInternal env req sel) ∧
    (searchBatchPath env req = SearchPath.twoPhase →
      searchBatch env req sel =
        match searchBatchInternal env (stripBatch req) sel with
        | .error e => .error e
        | .ok wpr => collectResults ((wpr.zip req.searches).map (fun pr =>
            fillSearchResultWithPayload env pr.1 pr.2.withPayload
              (pr.2.withVector.getD false) sel))) := by
  have hmul : sumLimits req * payloadTransfersFactorThreshold = 10 * sumLimits req := by
    unfold payloadTransfersFactorThreshold
    exact Nat.mul_comm _ _
  refine ⟨?_, ?_, ?_⟩
  · unfold searchBatchPath
    rw [if_neg hnz]
    by_cases hc : isTwoPhaseCondition env.shards.length req = true
    · rw [if_pos hc]
      simp only [true_iff]
      unfold isTwoPhaseCondition at hc
      rw [Bool.and_eq_true, decide_eq_true_eq] at hc
      exact ⟨hc.1, by rw [← hmul]; exact hc.2⟩
    · rw [if_neg hc]
      constructor
      · intro hcontra
        cases hcontra
      · intro hAB
        exfalso
        apply hc
        unfold isTwoPhaseCondition
        rw [Bool.and_eq_true, decide_eq_true_eq]
        exact ⟨hAB.1, by rw [hmul]; exact hAB.2⟩
  · intro hdirect
    unfold searchBatchPath at hdirect
    rw [if_neg hnz] at hdirect
    unfold searchBatch
    rw [if_neg hnz]
    by_cases hc : isTwoPhaseCondition env.shards.length req = true
    · rw [if_pos hc] at hdirect
      cases hdirect
    · rw [if_neg hc]
  · intro htwo
    unfold searchBatchPath at htwo
    rw [if_neg hnz] at htwo
    unfold searchBatch
    rw [if_neg hnz]
    by_cases hc : isTwoPhaseCondition env.shards.length req = true
    · rw [if_pos hc]
    · rw [if_neg hc] at htwo
      cases htwo

/-- Closed witness for the path selection: a payload-requesting single
query with limit 1 and offset 5 over a 3-shard collection crosses the
threshold (3 × 6 > 10 × 1) and takes the two-phase path. -/
theorem searchBatch_path_spec_witness :
    (searchBatchPath
        ⟨[0, 1, 2], fun _ => some Order.LargeBetter, fun _ _ => [[]], fun _ _ => []⟩
        ⟨[⟨"v", 1, 5, some true, none⟩]⟩ = SearchPath.twoPhase ↔
      metadataRequired ⟨[⟨"v", 1, 5, some true, none⟩]⟩ = true ∧
        ([0, 1, 2] : List Nat).length *
            (sumLimits ⟨[⟨"v", 1, 5, some true, none⟩]⟩ +
              sumOffsets ⟨[⟨"v", 1, 5, some true, none⟩]⟩) >
          10 * sumLimits ⟨[⟨"v", 1, 5, some true, none⟩]⟩) ∧
    (searchBatchPath
        ⟨[0, 1, 2], fun _ => some Order.LargeBetter, fun _ _ => [[]], fun _ _ => []⟩
        ⟨[⟨"v", 1, 5, some true, none⟩]⟩ = SearchPath.direct →
      searchBatch
          ⟨[0, 1, 2], fun _ => some Order.LargeBetter, fun _ _ => [[]], fun _ _ => []⟩
          ⟨[⟨"v", 1, 5, some true, none⟩]⟩ none =
        searchBatchInternal
          ⟨[0, 1, 2], fun _ => some Order.LargeBetter, fun _ _ => [[]], fun _ _ => []⟩
          ⟨[⟨"v", 1, 5, some true, none⟩]⟩ none) ∧
    (searchBatchPath
        ⟨[0, 1, 2], fun _ => some Order.LargeBetter, fun _ _ => [[]], fun _ _ => []⟩
        ⟨[⟨"v", 1, 5, some true, none⟩]⟩ = SearchPath.twoPhase →
      searchBatch
          ⟨[0, 1, 2], fun _ => some Order.LargeBetter, fun _ _ => [[]], fun _ _ => []⟩
          ⟨[⟨"v", 1, 5, some true, none⟩]⟩ none =
        match searchBatchInternal
            ⟨[0, 1, 2], fun _ => some Order.LargeBetter, fun _ _ => [[]], fun _ _ => []⟩
            (stripBatch ⟨[⟨"v", 1, 5, some true, none⟩]⟩) none with
        | .error e => .error e
        | .ok wpr => collectResults
            ((wpr.zip (⟨[⟨"v", 1, 5, some true, none⟩]⟩ :
              SearchRequestBatch).searches).map (fun pr =>
              fillSearchResultWithPayload
                ⟨[0, 1, 2], fun _ => some Order.LargeBetter, fun _ _ => [[]], fun _ _ => []⟩
                pr.1 pr.2.withPayload (pr.2.withVector.getD false) none))) :=
  searchBatch_path_spec
    ⟨[0, 1, 2], fun _ => some Order.LargeBetter, fun _ _ => [[]], fun _ _ => []⟩
    ⟨[⟨"v", 1, 5, some true, none⟩]⟩ none (by decide)

/-! ## Theorems: scroll (C7, C10) -/

/-- C7: with an effective limit L ≥ 1 and a resolvable shard selection,
scroll asks every target shard for up to L+1 points, flattens the replies,
stably sorts them by point id and truncates to L+1; with fewer than L+1
points the page is final (`next_page_offset = none`, all points
returned); with exactly L+1 points the extra last point is removed and
its id becomes `next_page_offset`. -/
theorem scrollBy_spec (env : ScrollEnv) (req : ScrollRequest) (sel : Option Nat)
    (L : Nat) (hL : req.limit.getD scrollDefaultLimit = L) (hpos : 1 ≤ L)
    (ts : List Nat) (hts : targetShards env.shards sel = .ok ts) :
    scrollBy env req sel =
      (if ((sortById ((ts.map (fun sh =>
            env.shardScroll sh req.offset (L + 1))).flatten)).take (L + 1)).length <
          L + 1 then
        (.ok ⟨(sortById ((ts.map (fun sh =>
          env.shardScroll sh req.offset (L + 1))).flatten)).take (L + 1), none⟩, ts)
      else
        (.ok ⟨((sortById ((ts.map (fun sh =>
            env.shardScroll sh req.offset (L + 1))).flatten)).take (L + 1)).dropLast,
          (((sortById ((ts.map (fun sh =>
            env.shardScroll sh req.offset (L + 1))).flatten)).take
              (L + 1)).getLast?).map (fun p => p.id)⟩, ts)) := by
  unfold scrollBy
  dsimp only
  rw [hL, if_neg (by omega), hts]

/-- Closed witness for scroll: two shards with interleaved ids, limit 2;
the merged page is the two smallest ids and the third becomes the next
page offset. -/
theorem scrollBy_spec_witness :
    scrollBy
        ⟨[0, 1], fun sh _ _ => if sh = 0 then
          [⟨1, none, none⟩, ⟨3, none, none⟩, ⟨5, none, none⟩]
          else [⟨2, none, none⟩, ⟨4, none, none⟩]⟩
        ⟨none, some 2, none, false, false⟩ none =
      (if ((sortById ((([0, 1] : List Nat).map (fun sh =>
            (fun sh (_ : Option Nat) (_ : Nat) => if sh = 0 then
              [(⟨1, none, none⟩ : Record), ⟨3, none, none⟩, ⟨5, none, none⟩]
              else [⟨2, none, none⟩, ⟨4, none, none⟩]) sh none (2 + 1))).flatten)).take
          (2 + 1)).length < 2 + 1 then
        (.ok ⟨(sortById ((([0, 1] : List Nat).map (fun sh =>
          (fun sh (_ : Option Nat) (_ : Nat) => if sh = 0 then
            [(⟨1, none, none⟩ : Record), ⟨3, none, none⟩, ⟨5, none, none⟩]
            else [⟨2, none, none⟩, ⟨4, none, none⟩]) sh none (2 + 1))).flatten)).take
          (2 + 1), none⟩, [0, 1])
      else
        (.ok ⟨((sortById ((([0, 1] : List Nat).map (fun sh =>
            (fun sh (_ : Option Nat) (_ : Nat) => if sh = 0 then
              [(⟨1, none, none⟩ : Record), ⟨3, none, none⟩, ⟨5, none, none⟩]
              else [⟨2, none, none⟩, ⟨4, none, none⟩]) sh none (2 + 1))).flatten)).take
            (2 + 1)).dropLast,
          (((sortById ((([0, 1] : List Nat).map (fun sh =>
            (fun sh (_ : Option Nat) (_ : Nat) => if sh = 0 then
              [(⟨1, none, none⟩ : Record), ⟨3, none, none⟩, ⟨5, none, none⟩]
              else [⟨2, none, none⟩, ⟨4, none, none⟩]) sh none (2 + 1))).flatten)).take
            (2 + 1)).getLast?).map (fun p => p.id)⟩, [0, 1])) :=
  scrollBy_spec
    ⟨[0, 1], fun sh _ _ => if sh = 0 then
      [⟨1, none, none⟩, ⟨3, none, none⟩, ⟨5, none, none⟩]
      else [⟨2, none, none⟩, ⟨4, none, none⟩]⟩
    ⟨none, some 2, none, false, false⟩ none 2 rfl (by decide) [0, 1] rfl

/-- C10: a scroll request carrying an explicit limit of 0 fails with
`BadRequest "Limit cannot be 0"` for every environment and selection,
before any shard is contacted (the contacted-shard list is empty), so no
collection state is touched. -/
theorem scrollBy_limit_zero (env : ScrollEnv) (req : ScrollRequest)
    (sel : Option Nat) (h : req.limit = some 0) :
    scrollBy env req sel = (.error (.badRequest "Limit cannot be 0"), []) := by
  unfold scrollBy
  dsimp only
  rw [h]
  rfl

/-- Closed witness for the limit-0 rejection. -/
theorem scrollBy_limit_zero_witness :
    scrollBy ⟨[0], fun _ _ _ => [⟨7, none, none⟩]⟩
        ⟨none, some 0, none, false, false⟩ none =
      (.error (.badRequest "Limit cannot be 0"), []) :=
  scrollBy_limit_zero ⟨[0], fun _ _ _ => [⟨7, none, none⟩]⟩
    ⟨none, some 0, none, false, false⟩ none rfl

/-! ## Theorems: search as a single-element batch (C9) -/

/-- C9 counterexample, refuting the claimed equality on both shortcut
paths.  First, with `limit = 0` search succeeds with the empty list, but
`search_batch` on the one-element batch shortcuts to an empty outer
result list, so no first element exists.  Second, on the metadata-heavy
two-phase path (eleven shards, payload requested, so
`shards × Σ(limit+offset) > 10 × Σ limit`) the phase-2 enrichment drops
every point whose id `retrieve` does not return — here the stores return
no records — so the first element of the `search_batch` result is the
empty list while `search`, which runs `_search_batch` directly, returns
the found point: the two lists differ. -/
theorem search_batch_first_counterexample :
    search ⟨[0], fun _ => some Order.LargeBetter, fun _ _ => [[]], fun _ _ => []⟩
        ⟨"v", 0, 0, none, none⟩ none = .ok [] ∧
    searchBatch ⟨[0], fun _ => some Order.LargeBetter, fun _ _ => [[]], fun _ _ => []⟩
        ⟨[⟨"v", 0, 0, none, none⟩]⟩ none = .ok [] ∧
    (searchBatch ⟨[0], fun _ => some Order.LargeBetter, fun _ _ => [[]], fun _ _ => []⟩
        ⟨[⟨"v", 0, 0, none, none⟩]⟩ none).toOption.bind List.head? = none ∧
    searchBatchPath
        ⟨[0, 1, 2, 3, 4, 5, 6, 7, 8, 9, 10], fun _ => some Order.LargeBetter,
          fun _ _ => [[⟨1, 5, some 9, none⟩]], fun _ _ => []⟩
        ⟨[⟨"v", 1, 0, some true, none⟩]⟩ = SearchPath.twoPhase ∧
    search
        ⟨[0, 1, 2, 3, 4, 5, 6, 7, 8, 9, 10], fun _ => some Order.LargeBetter,
          fun _ _ => [[⟨1, 5, some 9, none⟩]], fun _ _ => []⟩
        ⟨"v", 1, 0, some true, none⟩ none = .ok [⟨1, 5, some 9, none⟩] ∧
    (searchBatch
        ⟨[0, 1, 2, 3, 4, 5, 6, 7, 8, 9, 10], fun _ => some Order.LargeBetter,
          fun _ _ => [[⟨1, 5, some 9, none⟩]], fun _ _ => []⟩
        ⟨[⟨"v", 1, 0, some true, none⟩]⟩ none).toOption.bind List.head? =
      some [] :=
  ⟨rfl, rfl, rfl, rfl, rfl, rfl⟩

/-- C9 (amended): for `limit ≠ 0`, when the one-element batch does not
cross the metadata-heavy threshold `search_batch` coincides with
`_search_batch`, `search` returns the first element of the `_search_batch`
result, and that result always has exactly one element (so the first
element exists).  Both restrictions are forced by the counterexample: for
`limit = 0` search returns the empty list immediately while `search_batch`
returns an empty outer list with no first element, and above the threshold
the two-phase enrichment can change the first element (it drops points
`retrieve` no longer returns) while `search` bypasses it. -/
theorem search_single_batch (env : SearchEnv) (r : SearchRequest) (sel : Option Nat)
    (hlim : ¬ r.limit = 0)
    (hpath : ¬ isTwoPhaseCondition env.shards.length ⟨[r]⟩ = true) :
    searchBatch env ⟨[r]⟩ sel = searchBatchInternal env ⟨[r]⟩ sel ∧
    search env r sel =
      (match searchBatchInternal env ⟨[r]⟩ sel with
       | .error e => .error e
       | .ok results => .ok (results.headD [])) ∧
    (∀ out, searchBatchInternal env ⟨[r]⟩ sel = .ok out → out.length = 1) := by
  have hnz : ¬ (⟨[r]⟩ : SearchRequestBatch).searches.all (fun s => s.limit = 0) = true := by
    simp only [List.all_cons, List.all_nil, Bool.and_true, decide_eq_true_eq]
    exact hlim
  refine ⟨?_, ?_, ?_⟩
  · unfold searchBatch
    rw [if_neg hnz, if_neg hpath]
  · unfold search
    rw [if_neg hlim]
  · intro out hout
    unfold searchBatchInternal at hout
    cases hts : targetShards env.shards sel with
    | error e =>
      rw [hts] at hout
      simp at hout
    | ok ts =>
      rw [hts] at hout
      unfold mergeFromShards at hout
      have hlen := collectResults_length _ out hout
      rw [hlen, List.length_map, List.length_zip]
      unfold concatQueryResults
      simp

/-- Closed witness for the single-element batch agreement at `limit = 1`
over one shard holding one point. -/
theorem search_single_batch_witness :
    searchBatch
        ⟨[0], fun _ => some Order.LargeBetter,
          fun _ _ => [[⟨4, 2, none, none⟩]], fun _ _ => []⟩
        ⟨[⟨"v", 1, 0, none, none⟩]⟩ none =
      searchBatchInternal
        ⟨[0], fun _ => some Order.LargeBetter,
          fun _ _ => [[⟨4, 2, none, none⟩]], fun _ _ => []⟩
        ⟨[⟨"v", 1, 0, none, none⟩]⟩ none ∧
    search
        ⟨[0], fun _ => some Order.LargeBetter,
          fun _ _ => [[⟨4, 2, none, none⟩]], fun _ _ => []⟩
        ⟨"v", 1, 0, none, none⟩ none =
      (match searchBatchInternal
          ⟨[0], fun _ => some Order.LargeBetter,
            fun _ _ => [[⟨4, 2, none, none⟩]], fun _ _ => []⟩
          ⟨[⟨"v", 1, 0, none, none⟩]⟩ none with
       | .error e => .error e
       | .ok results => .ok (results.headD [])) ∧
    (∀ out, searchBatchInternal
        ⟨[0], fun _ => some Order.LargeBetter,
          fun _ _ => [[⟨4, 2, none, none⟩]], fun _ _ => []⟩
        ⟨[⟨"v", 1, 0, none, none⟩]⟩ none = .ok out → out.length = 1) :=
  search_single_batch
    ⟨[0], fun _ => some Order.LargeBetter,
      fun _ _ => [[⟨4, 2, none, none⟩]], fun _ _ => []⟩
    ⟨"v", 1, 0, none, none⟩ none (by decide) (by decide)

end Qdrant
